import Mathlib

/-!
Shallow embedding of the Running-Fit-Tech core (src/runnerapp) in Lean 4.

Python strings are modelled as Lean `String`/`List Char`; Python `None`
becomes `Option.none`; Python `float` values that the modelled code only
copies (never computes with) are modelled as `ℚ`. The Karvonen zone
arithmetic (`calculate_training_zones`) computes in IEEE-754 binary64
floating point in the source; it is modelled bit-exactly here: doubles
are dyadic rationals (an integer numerator over a power of two), each
operation's exact result is rounded to 53 significant bits with
round-to-nearest, ties-to-even (clamped to the subnormal grid 2^-1074),
int-to-float conversion raises OverflowError from 2^1024 - 2^970 upward,
and an overflowing/infinite intermediate makes the final Python `round`
raise — both modelled as the failure value of an `Option` result.
-/

namespace RunnerApp

/-- Python floats as used by the modelled code paths (only ever copied,
never computed with, in the serialization round-trip). -/
abbrev PyFloat := ℚ

/- ### Basic Python string helpers -/

/-- Whitespace characters stripped by Python `str.strip()`. -/
def isPyWS (c : Char) : Bool :=
  c = ' ' || c = '\t' || c = '\n' || c = '\r' || c = Char.ofNat 11 || c = Char.ofNat 12

/-- Python `str.strip()` on a character list. -/
def pyStripList (cs : List Char) : List Char :=
  ((cs.dropWhile isPyWS).reverse.dropWhile isPyWS).reverse

/-- Python `str.strip()`. -/
def pyStrip (s : String) : String :=
  ⟨pyStripList s.toList⟩

/-- Python `str.lower()` restricted to the alphabets the source's token
sets use: ASCII letters plus the accented Spanish vowels and Ñ/Ü. -/
def lowerChar (c : Char) : Char :=
  if 'A' ≤ c ∧ c ≤ 'Z' then Char.ofNat (c.toNat + 32)
  else if c = 'Á' then 'á'
  else if c = 'É' then 'é'
  else if c = 'Í' then 'í'
  else if c = 'Ó' then 'ó'
  else if c = 'Ú' then 'ú'
  else if c = 'Ñ' then 'ñ'
  else if c = 'Ü' then 'ü'
  else c

/-- Python `str.lower()`. -/
def pyLower (s : String) : String :=
  ⟨s.toList.map lowerChar⟩

/- ### calculations.normalize_gender_input (calculations.py 21-60) -/

/-- The `male_variations` set from `normalize_gender_input`. -/
def male_variations : List String :=
  ["m", "male", "masculino", "hombre", "man", "varón", "varon"]

/-- The `female_variations` set from `normalize_gender_input`. -/
def female_variations : List String :=
  ["f", "female", "femenino", "mujer", "woman", "fem"]

/-- Source `calculations.normalize_gender_input`: empty (falsy) input returns
`""`; otherwise the stripped, lower-cased input is looked up in the male
and female variation sets, anything unmatched mapping to `"Otro"`. -/
def normalize_gender_input (input_str : String) : String :=
  if input_str = "" then ""
  else if male_variations.contains (pyLower (pyStrip input_str)) then "Masculino"
  else if female_variations.contains (pyLower (pyStrip input_str)) then "Femenino"
  else "Otro"

/- ### calculations.normalize_day_of_week_input (calculations.py 63-96) -/

/-- The `day_mapping` dict from `normalize_day_of_week_input`. -/
def day_mapping : List (String × String) :=
  [("l", "Lunes"), ("lun", "Lunes"), ("lunes", "Lunes"),
   ("m", "Martes"), ("mar", "Martes"), ("martes", "Martes"),
   ("x", "Miércoles"), ("mie", "Miércoles"), ("mier", "Miércoles"),
   ("miércoles", "Miércoles"), ("miercoles", "Miércoles"),
   ("j", "Jueves"), ("jue", "Jueves"), ("jueves", "Jueves"),
   ("v", "Viernes"), ("vie", "Viernes"), ("viernes", "Viernes"),
   ("s", "Sábado"), ("sab", "Sábado"), ("sábado", "Sábado"), ("sabado", "Sábado"),
   ("d", "Domingo"), ("dom", "Domingo"), ("domingo", "Domingo")]

/-- The seven canonical full weekday names produced by the mapping. -/
def canonicalWeekdays : List String :=
  ["Lunes", "Martes", "Miércoles", "Jueves", "Viernes", "Sábado", "Domingo"]

/-- Source `calculations.normalize_day_of_week_input`: empty input returns `""`;
otherwise `day_mapping.get(normalized, input_str.strip())`. -/
def normalize_day_of_week_input (input_str : String) : String :=
  if input_str = "" then ""
  else (day_mapping.lookup (pyLower (pyStrip input_str))).getD (pyStrip input_str)

/-- Modelled from the spec: Python-style title-casing ("unmatched input is
returned title-cased" in the spec's weekday-normalizer sentence). The
first letter of every alphabetic run is upper-cased, the rest lower-cased.
Used only to state the spec's title-case clause; the source never
title-cases. -/
def specTitleCase (s : String) : String :=
  let upperChar : Char → Char := fun c =>
    if 'a' ≤ c ∧ c ≤ 'z' then Char.ofNat (c.toNat - 32) else c
  let isAl : Char → Bool := fun c =>
    ('a' ≤ c ∧ c ≤ 'z') || ('A' ≤ c ∧ c ≤ 'Z')
  let rec go : Bool → List Char → List Char
    | _, [] => []
    | prevAlpha, c :: cs =>
      let c' := if isAl c then (if prevAlpha then lowerChar c else upperChar c) else c
      c' :: go (isAl c) cs
  ⟨go false s.toList⟩

/- ### calculations.parse_time_input (calculations.py 152-213) -/

/-- Numeric value of an ASCII digit run (most significant first). -/
def natOfDigits (ds : List Char) : ℕ :=
  ds.foldl (fun a c => 10 * a + (c.toNat - '0'.toNat)) 0

/-- The cleaning step of `parse_time_input`:
`input_str.strip().replace("'", ":").replace('"', "")`. -/
def cleanTimeInput (s : String) : List Char :=
  ((pyStripList s.toList).map (fun c => if c = Char.ofNat 39 then ':' else c)).filter
    (fun c => c ≠ Char.ofNat 34)

/-- Regex 1 of `parse_time_input`: anchored `\d{1,2}:\d{2}:\d{2}`. -/
def matchHMS (cs : List Char) : Option (ℕ × ℕ × ℕ) :=
  let (g1, r1) := cs.span Char.isDigit
  if g1.length = 1 ∨ g1.length = 2 then
    match r1 with
    | c1 :: r2 =>
      if c1 = ':' then
        let (g2, r3) := r2.span Char.isDigit
        if g2.length = 2 then
          match r3 with
          | c2 :: r4 =>
            if c2 = ':' then
              let (g3, r5) := r4.span Char.isDigit
              if g3.length = 2 ∧ r5 = [] then
                some (natOfDigits g1, natOfDigits g2, natOfDigits g3)
              else none
            else none
          | _ => none
        else none
      else none
    | _ => none
  else none

/-- Regex 2 of `parse_time_input`: anchored `\d{1,2}:\d{2}` (the bare
two-field form). -/
def matchMS (cs : List Char) : Option (ℕ × ℕ) :=
  let (g1, r1) := cs.span Char.isDigit
  if g1.length = 1 ∨ g1.length = 2 then
    match r1 with
    | c1 :: r2 =>
      if c1 = ':' then
        let (g2, r3) := r2.span Char.isDigit
        if g2.length = 2 ∧ r3 = [] then some (natOfDigits g1, natOfDigits g2)
        else none
      else none
    | _ => none
  else none

/-- Regex 3 of `parse_time_input`: anchored `\d+\.\d{2}\.\d{2}`. -/
def matchDotted (cs : List Char) : Option (ℕ × ℕ × ℕ) :=
  let (g1, r1) := cs.span Char.isDigit
  if 1 ≤ g1.length then
    match r1 with
    | c1 :: r2 =>
      if c1 = '.' then
        let (g2, r3) := r2.span Char.isDigit
        if g2.length = 2 then
          match r3 with
          | c2 :: r4 =>
            if c2 = '.' then
              let (g3, r5) := r4.span Char.isDigit
              if g3.length = 2 ∧ r5 = [] then
                some (natOfDigits g1, natOfDigits g2, natOfDigits g3)
              else none
            else none
          | _ => none
        else none
      else none
    | _ => none
  else none

/-- Regex 4 of `parse_time_input`: anchored `\d+h\d{2}m\d{2}s`. -/
def matchHMSLetters (cs : List Char) : Option (ℕ × ℕ × ℕ) :=
  let (g1, r1) := cs.span Char.isDigit
  if 1 ≤ g1.length then
    match r1 with
    | c1 :: r2 =>
      if c1 = 'h' then
        let (g2, r3) := r2.span Char.isDigit
        if g2.length = 2 then
          match r3 with
          | c2 :: r4 =>
            if c2 = 'm' then
              let (g3, r5) := r4.span Char.isDigit
              if g3.length = 2 ∧ r5 = ['s'] then
                some (natOfDigits g1, natOfDigits g2, natOfDigits g3)
              else none
            else none
          | _ => none
        else none
      else none
    | _ => none
  else none

/-- Regex 5 of `parse_time_input`: anchored `\d+h\d{2}m`. -/
def matchHMLetters (cs : List Char) : Option (ℕ × ℕ) :=
  let (g1, r1) := cs.span Char.isDigit
  if 1 ≤ g1.length then
    match r1 with
    | c1 :: r2 =>
      if c1 = 'h' then
        let (g2, r3) := r2.span Char.isDigit
        if g2.length = 2 ∧ r3 = ['m'] then some (natOfDigits g1, natOfDigits g2)
        else none
      else none
    | _ => none
  else none

/-- Python `f"{n:02d}"` for the non-negative values the parser produces. -/
def fmt2 (n : ℕ) : String :=
  if n < 10 then "0" ++ toString n else toString n

/-- The final formatting/validation step of `parse_time_input`:
`None` if `minutes >= 60 or seconds >= 60`, else the zero-padded
`HH:MM:SS` string. -/
def finishTime (hours minutes seconds : ℕ) : Option String :=
  if 60 ≤ minutes ∨ 60 ≤ seconds then none
  else some (fmt2 hours ++ ":" ++ fmt2 minutes ++ ":" ++ fmt2 seconds)

/-- The `len(groups) == 2` branch of `parse_time_input`: the two captured
fields are minutes and seconds, with minutes ≥ 60 rolled over into
hours. -/
def twoFieldResult (a b : ℕ) : Option String :=
  finishTime (if 60 ≤ a then a / 60 else 0) (if 60 ≤ a then a % 60 else a) b

/-- Source `calculations.parse_time_input`: falsy input gives `None`; otherwise
the cleaned input is tried against the five anchored patterns in source
order, two-group matches being read as minutes:seconds. -/
def parse_time_input (input_str : String) : Option String :=
  if input_str = "" then none
  else
    match matchHMS (cleanTimeInput input_str) with
    | some (h, m, s) => finishTime h m s
    | none =>
      match matchMS (cleanTimeInput input_str) with
      | some (m, s) => twoFieldResult m s
      | none =>
        match matchDotted (cleanTimeInput input_str) with
        | some (h, m, s) => finishTime h m s
        | none =>
          match matchHMSLetters (cleanTimeInput input_str) with
          | some (h, m, s) => finishTime h m s
          | none =>
            match matchHMLetters (cleanTimeInput input_str) with
            | some (h, m) => twoFieldResult h m
            | none => none

/- ### models.TrainingZones / calculations.calculate_training_zones
(models.py 53-65, calculations.py 322-366) -/

/-- Source `models.TrainingZones`: five optional "low-high" bpm strings. -/
structure TrainingZones where
  zone1_hr : Option String := none
  zone2_hr : Option String := none
  zone3_hr : Option String := none
  zone4_hr : Option String := none
  zone5_hr : Option String := none
deriving DecidableEq

/-- Fuel-driven binary length: `bitLenAux fuel n` is the number of binary
digits of `n` whenever `n < 2^fuel`. -/
def bitLenAux : ℕ → ℕ → ℕ
  | 0, _ => 0
  | fuel + 1, n => if n = 0 then 0 else bitLenAux fuel (n / 2) + 1

/-- Number of binary digits of `n` (0 for 0); the fuel `n + 1` always
suffices since `n < 2^(n+1)`. -/
def bitLen (n : ℕ) : ℕ := bitLenAux (n + 1) n

/-- Round-half-to-even of `a / 2^t` (the common rounding core of IEEE-754
round-to-nearest and of Python's `round`). -/
def rheDiv (a : ℤ) (t : ℕ) : ℤ :=
  if t = 0 then a
  else if a % ((2^t : ℕ) : ℤ) < ((2^(t-1) : ℕ) : ℤ) then a / ((2^t : ℕ) : ℤ)
  else if ((2^(t-1) : ℕ) : ℤ) < a % ((2^t : ℕ) : ℤ) then a / ((2^t : ℕ) : ℤ) + 1
  else if (a / ((2^t : ℕ) : ℤ)) % 2 = 0 then a / ((2^t : ℕ) : ℤ)
  else a / ((2^t : ℕ) : ℤ) + 1

/-- A dyadic rational `num / 2^exp`: the exact value of a double, or an
exact intermediate result before rounding. -/
structure Dyadic where
  num : ℤ
  exp : ℕ
deriving DecidableEq

/-- The rational value of a dyadic. -/
def Dyadic.val (x : Dyadic) : ℚ := (x.num : ℚ) / 2^x.exp

/-- Exact product of two dyadics. -/
def dyMul (x y : Dyadic) : Dyadic := ⟨x.num * y.num, x.exp + y.exp⟩

/-- Exact sum of two dyadics (on the common grid). -/
def dyAdd (x y : Dyadic) : Dyadic :=
  ⟨x.num * ((2^(max x.exp y.exp - x.exp) : ℕ) : ℤ) +
    y.num * ((2^(max x.exp y.exp - y.exp) : ℕ) : ℤ), max x.exp y.exp⟩

/-- The number of low bits of `x.num` that binary64 rounding discards:
the ulp exponent `max (⌊log2 |x|⌋ - 52) (-1074)` plus the scale. -/
def dyUlpShift (x : Dyadic) : ℤ :=
  max ((bitLen x.num.natAbs : ℤ) - 1 - (x.exp : ℤ) - 52) (-1074) + (x.exp : ℤ)

/-- Round a dyadic to the nearest binary64 value (ties to even): keep 53
significant bits, never finer than `2^-1074`. -/
def dyRound64 (x : Dyadic) : Dyadic :=
  if x.num = 0 then ⟨0, 0⟩
  else if dyUlpShift x ≤ 0 then x
  else if (dyUlpShift x).toNat ≤ x.exp then
    ⟨rheDiv x.num (dyUlpShift x).toNat, x.exp - (dyUlpShift x).toNat⟩
  else ⟨rheDiv x.num (dyUlpShift x).toNat * ((2^((dyUlpShift x).toNat - x.exp) : ℕ) : ℤ), 0⟩

/-- The overflow threshold `2^1024 - 2^970 = 2^970 * (2^54 - 1)` as a
literal (elaboration does not evaluate powers this large): the smallest
magnitude at which round-to-nearest produces `2^1024`, i.e. at which
int-to-float conversion raises OverflowError and a float result becomes
infinite. -/
def OVERFLOW_NUM : ℕ :=
  179769313486231580793728971405303415079934132710037826936173778980444968292764750946649017977587207096330286416692887910946555547851940402630657488671505820681908902000708383676273854845817711531764475730270069855571366959622842914819860834936475292719074168444365510704342711559699508093042880177904174497792

/-- Whether a dyadic's magnitude reaches the binary64 overflow
threshold. -/
def dyOverflow (x : Dyadic) : Bool :=
  if ((OVERFLOW_NUM * 2^x.exp : ℕ) : ℤ) ≤ |x.num| then true else false

/-- Double multiplication: an overflowing (infinite) result poisons the
computation — the final Python `round` then raises — so it is the failure
value. -/
def mulDouble (x y : Dyadic) : Option Dyadic :=
  if dyOverflow (dyMul x y) then none else some (dyRound64 (dyMul x y))

/-- Double addition, with the same overflow behaviour. -/
def addDouble (x y : Dyadic) : Option Dyadic :=
  if dyOverflow (dyAdd x y) then none else some (dyRound64 (dyAdd x y))

/-- Python int-to-float conversion: raises OverflowError (the failure
value) from the threshold upward, else rounds to the nearest double. -/
def intToDouble (n : ℤ) : Option Dyadic :=
  if ((OVERFLOW_NUM : ℕ) : ℤ) ≤ |n| then none else some (dyRound64 ⟨n, 0⟩)

/-- The exact binary64 values of the band-fraction literals 0.5, 0.6,
0.7, 0.8, 0.9, 1.0 of `calculate_training_zones` (mantissa over 2^53). -/
def intensityFloat : ℕ → Dyadic
  | 5 => ⟨4503599627370496, 53⟩
  | 6 => ⟨5404319552844595, 53⟩
  | 7 => ⟨6305039478318694, 53⟩
  | 8 => ⟨7205759403792794, 53⟩
  | 9 => ⟨8106479329266893, 53⟩
  | _ => ⟨1, 0⟩

/-- One bound `round(resting_hr + c * hr_reserve)` of
`calculate_training_zones`, evaluated the way Python does: convert
`hr_reserve` to float, multiply by the band constant, convert
`resting_hr` and add, then `round` (half to even) — any overflow raising
along the way yields the failure value. -/
def karvonenFloatWith (c : Dyadic) (max_hr resting_hr : ℤ) : Option ℤ :=
  match intToDouble (max_hr - resting_hr) with
  | none => none
  | some hrRes =>
    match mulDouble c hrRes with
    | none => none
    | some t1 =>
      match intToDouble resting_hr with
      | none => none
      | some rf =>
        match addDouble rf t1 with
        | none => none
        | some t2 => some (rheDiv t2.num t2.exp)

/-- The Karvonen bound at band `k/10` (k = 5..10). -/
def karvonenBoundFloat (max_hr resting_hr : ℤ) (k : ℕ) : Option ℤ :=
  karvonenFloatWith (intensityFloat k) max_hr resting_hr

/-- Source `calculations.calculate_training_zones`: the five Karvonen
bands 50-60%, 60-70%, 70-80%, 80-90%, 90-100% of heart-rate reserve,
each zone a `f"{min_hr}-{max_hr_zone}"` string; an OverflowError anywhere
aborts the whole computation (the failure value). -/
def calculate_training_zones (max_hr resting_hr : ℤ) : Option TrainingZones :=
  match karvonenBoundFloat max_hr resting_hr 5, karvonenBoundFloat max_hr resting_hr 6,
      karvonenBoundFloat max_hr resting_hr 7, karvonenBoundFloat max_hr resting_hr 8,
      karvonenBoundFloat max_hr resting_hr 9, karvonenBoundFloat max_hr resting_hr 10 with
  | some b5, some b6, some b7, some b8, some b9, some b10 =>
    some { zone1_hr := some (toString b5 ++ "-" ++ toString b6)
           zone2_hr := some (toString b6 ++ "-" ++ toString b7)
           zone3_hr := some (toString b7 ++ "-" ++ toString b8)
           zone4_hr := some (toString b8 ++ "-" ++ toString b9)
           zone5_hr := some (toString b9 ++ "-" ++ toString b10) }
  | _, _, _, _, _, _ => none

/- ### models.Injury / models.Race / models.AthleteProfile
(models.py 25-124) -/

/-- Source `models.Injury`. -/
structure Injury where
  type : String
  date_approx : String
  recovery_desc : String
deriving DecidableEq

/-- Source `models.Race`. -/
structure Race where
  name : String
  date : String
  distance_km : PyFloat
  goal_time : Option String
  terrain : String
deriving DecidableEq

/-- The default `physiological_metrics_meta` string of `AthleteProfile`. -/
def PHYSIO_META : String :=
  "Métricas fisiológicas clave que definen el perfil de resistencia y el potencial del atleta."

/-- The default `injury_history_meta` string of `AthleteProfile`. -/
def INJURY_META : String :=
  "Historial de lesiones para identificar patrones de riesgo, debilidades estructurales y adaptar el entrenamiento de fuerza y las progresiones de carga."

/-- Source `models.AthleteProfile` with the dataclass defaults. `generated_at`
defaults to a wall-clock timestamp in the source; it is carried as a plain
string here (its default plays no role in the modelled claims, which strip
or round-trip it). `personal_bests` (a Python dict) is an insertion-ordered
association list. -/
structure AthleteProfile where
  name : String := ""
  generated_at : String := ""
  age : Option ℤ := none
  gender : String := ""
  height_cm : Option ℤ := none
  weight_kg : Option PyFloat := none
  physiological_metrics_meta : String := PHYSIO_META
  max_hr : Option ℤ := none
  resting_hr : Option ℤ := none
  hrv_ms : Option ℤ := none
  vo2_max : Option PyFloat := none
  lactate_threshold_bpm : Option ℤ := none
  injury_history_meta : String := INJURY_META
  injuries : List Injury := []
  avg_weekly_km : Option PyFloat := none
  training_days_per_week : String := ""
  strength_training_history : Bool := false
  include_strength_training : Bool := false
  quality_session_preference : String := ""
  personal_bests : List (String × Option String) := []
  training_zones : Option TrainingZones := some {}
  main_objective : Option Race := none
  intermediate_races : List Race := []
deriving DecidableEq

/-- Source `AthleteProfile.is_complete` (models.py 347-364):
`all(field is not None and field != "" for field in [name, age, gender,
main_objective])`. For the string fields the check is non-emptiness; for
the optional fields it is presence (an int or a Race never equals ""). -/
def AthleteProfile.is_complete (p : AthleteProfile) : Bool :=
  (p.name != "") && p.age.isSome && (p.gender != "") && p.main_objective.isSome

/-- Modelled from the spec (§3 completeness predicate), for comparison
with the source `is_complete`: name, age, gender all present AND at least
one of max_hr/resting_hr AND at least one of avg_weekly_km /
training_days_per_week AND main_objective. -/
def specIsComplete (p : AthleteProfile) : Bool :=
  (p.name != "") && p.age.isSome && (p.gender != "") &&
    (p.max_hr.isSome || p.resting_hr.isSome) &&
    (p.avg_weekly_km.isSome || (p.training_days_per_week != "")) &&
    p.main_objective.isSome

/-- Source `models.create_empty_profile` (models.py 367-387): a default profile
with the four personal-best distance keys pre-seeded to null. -/
def create_empty_profile : AthleteProfile :=
  { personal_bests :=
      [("5k", none), ("10k", none), ("half_marathon", none), ("marathon", none)] }

/- ### The canonical profile document (models.py to_dict 126-201 /
from_dict 203-304)

The nested JSON document is modelled shape-typed: every key is an
`Option` (`none` = key absent, or present as JSON null where the source
treats the two alike via `dict.get` / falsiness). -/

/-- One entry of `injury_history.injuries` in the document. -/
structure InjuryDoc where
  type : Option String
  date_approx : Option String
  recovery_desc : Option String
deriving DecidableEq

/-- One race object in the document. -/
structure RaceDoc where
  name : Option String
  date : Option String
  distance_km : Option PyFloat
  goal_time : Option String
  terrain : Option String
deriving DecidableEq

/-- The `performance_data.training_zones` sub-document. -/
structure ZonesDoc where
  zone1_hr : Option String
  zone2_hr : Option String
  zone3_hr : Option String
  zone4_hr : Option String
  zone5_hr : Option String
deriving DecidableEq

/-- The `athlete_summary` section. -/
structure AthleteSummaryDoc where
  name : Option String
  generated_at : Option String
deriving DecidableEq

/-- The `personal_info` section. -/
structure PersonalInfoDoc where
  age : Option ℤ
  gender : Option String
  height_cm : Option ℤ
  weight_kg : Option PyFloat
deriving DecidableEq

/-- The `physiological_metrics` section. -/
structure PhysioDoc where
  meta_description : Option String
  max_hr : Option ℤ
  resting_hr : Option ℤ
  hrv_ms : Option ℤ
  vo2_max : Option PyFloat
  lactate_threshold_bpm : Option ℤ
deriving DecidableEq

/-- The `injury_history` section. -/
structure InjuryHistoryDoc where
  meta_description : Option String
  injuries : Option (List InjuryDoc)
deriving DecidableEq

/-- The `training_context` section. -/
structure TrainingContextDoc where
  avg_weekly_km : Option PyFloat
  training_days_per_week : Option String
  strength_training_history : Option Bool
  include_strength_training : Option Bool
  quality_session_preference : Option String
deriving DecidableEq

/-- The `performance_data` section. -/
structure PerformanceDoc where
  personal_bests : Option (List (String × Option String))
  training_zones : Option ZonesDoc
deriving DecidableEq

/-- The `race_goals` section. -/
structure RaceGoalsDoc where
  main_objective : Option RaceDoc
  intermediate_races : Option (List RaceDoc)
deriving DecidableEq

/-- The whole canonical profile document. -/
structure ProfileDoc where
  athlete_summary : Option AthleteSummaryDoc
  personal_info : Option PersonalInfoDoc
  physiological_metrics : Option PhysioDoc
  injury_history : Option InjuryHistoryDoc
  training_context : Option TrainingContextDoc
  performance_data : Option PerformanceDoc
  race_goals : Option RaceGoalsDoc
deriving DecidableEq

/-- The document with every section absent. -/
def emptyDoc : ProfileDoc :=
  ⟨none, none, none, none, none, none, none⟩

/-- Serialization of one `Injury` inside `to_dict`. -/
def Injury.toDoc (i : Injury) : InjuryDoc :=
  ⟨some i.type, some i.date_approx, some i.recovery_desc⟩

/-- Serialization of one `Race` inside `to_dict` (the `goal_time` value is
written as-is; it may be null). -/
def Race.toDoc (r : Race) : RaceDoc :=
  ⟨some r.name, some r.date, some r.distance_km, r.goal_time, some r.terrain⟩

/-- Serialization of `TrainingZones` inside `to_dict`. -/
def TrainingZones.toDoc (z : TrainingZones) : ZonesDoc :=
  ⟨z.zone1_hr, z.zone2_hr, z.zone3_hr, z.zone4_hr, z.zone5_hr⟩

/-- Source `AthleteProfile.to_dict` (models.py 126-201): every section and key is
written; `training_zones` and `main_objective` become null when the field
is `None` (a dataclass instance is always truthy, so the inner
per-zone conditionals of the source collapse to the present case). -/
def AthleteProfile.to_dict (p : AthleteProfile) : ProfileDoc where
  athlete_summary := some ⟨some p.name, some p.generated_at⟩
  personal_info := some ⟨p.age, some p.gender, p.height_cm, p.weight_kg⟩
  physiological_metrics := some
    ⟨some p.physiological_metrics_meta, p.max_hr, p.resting_hr, p.hrv_ms,
      p.vo2_max, p.lactate_threshold_bpm⟩
  injury_history := some
    ⟨some p.injury_history_meta, some (p.injuries.map Injury.toDoc)⟩
  training_context := some
    ⟨p.avg_weekly_km, some p.training_days_per_week,
      some p.strength_training_history, some p.include_strength_training,
      some p.quality_session_preference⟩
  performance_data := some
    ⟨some p.personal_bests, p.training_zones.map TrainingZones.toDoc⟩
  race_goals := some
    ⟨p.main_objective.map Race.toDoc, some (p.intermediate_races.map Race.toDoc)⟩

/-- Deserialization of one injury record in `from_dict`: each field via
`.get(key, "")`. -/
def InjuryDoc.toInjury (d : InjuryDoc) : Injury :=
  ⟨d.type.getD "", d.date_approx.getD "", d.recovery_desc.getD ""⟩

/-- Deserialization of one race object in `from_dict`: strings default to
`""`, `distance_km` to `0.0`, `goal_time` to null. -/
def RaceDoc.toRace (d : RaceDoc) : Race :=
  ⟨d.name.getD "", d.date.getD "", d.distance_km.getD 0, d.goal_time, d.terrain.getD ""⟩

/-- Deserialization of the training-zones sub-document in `from_dict`. -/
def ZonesDoc.toZones (d : ZonesDoc) : TrainingZones :=
  ⟨d.zone1_hr, d.zone2_hr, d.zone3_hr, d.zone4_hr, d.zone5_hr⟩

/-- The `athlete_summary` branch of `from_dict`. -/
def applySummary (p : AthleteProfile) : Option AthleteSummaryDoc → AthleteProfile
  | none => p
  | some s => { p with name := s.name.getD "", generated_at := s.generated_at.getD p.generated_at }

/-- The `personal_info` branch of `from_dict`. -/
def applyPersonal (p : AthleteProfile) : Option PersonalInfoDoc → AthleteProfile
  | none => p
  | some d =>
    { p with age := d.age, gender := d.gender.getD "", height_cm := d.height_cm,
             weight_kg := d.weight_kg }

/-- The `physiological_metrics` branch of `from_dict` (the meta string is
not read back; `cls()` keeps its default). -/
def applyPhysio (p : AthleteProfile) : Option PhysioDoc → AthleteProfile
  | none => p
  | some d =>
    { p with max_hr := d.max_hr, resting_hr := d.resting_hr, hrv_ms := d.hrv_ms,
             vo2_max := d.vo2_max, lactate_threshold_bpm := d.lactate_threshold_bpm }

/-- The `injury_history` branch of `from_dict`: guarded by the presence of
both the section and its `injuries` key; records are appended. -/
def applyInjuries (p : AthleteProfile) : Option InjuryHistoryDoc → AthleteProfile
  | none => p
  | some d =>
    match d.injuries with
    | none => p
    | some l => { p with injuries := p.injuries ++ l.map InjuryDoc.toInjury }

/-- The `training_context` branch of `from_dict`. -/
def applyTraining (p : AthleteProfile) : Option TrainingContextDoc → AthleteProfile
  | none => p
  | some d =>
    { p with avg_weekly_km := d.avg_weekly_km,
             training_days_per_week := d.training_days_per_week.getD "",
             strength_training_history := d.strength_training_history.getD false,
             include_strength_training := d.include_strength_training.getD false,
             quality_session_preference := d.quality_session_preference.getD "" }

/-- The `performance_data` branch of `from_dict`: `personal_bests` via
`.get(key, {})`; `training_zones` only when present and truthy (a written
zones sub-document always carries its five keys, hence is truthy). -/
def applyPerformance (p : AthleteProfile) : Option PerformanceDoc → AthleteProfile
  | none => p
  | some d =>
    let p1 := { p with personal_bests := d.personal_bests.getD [] }
    match d.training_zones with
    | none => p1
    | some zd => { p1 with training_zones := some zd.toZones }

/-- The `race_goals` branch of `from_dict`: main objective only when
present and truthy; intermediate races appended. -/
def applyGoals (p : AthleteProfile) : Option RaceGoalsDoc → AthleteProfile
  | none => p
  | some d =>
    let p1 := match d.main_objective with
      | none => p
      | some rd => { p with main_objective := some rd.toRace }
    match d.intermediate_races with
    | none => p1
    | some l => { p1 with intermediate_races := p1.intermediate_races ++ l.map RaceDoc.toRace }

/-- Source `AthleteProfile.from_dict` (models.py 203-304): starts from `cls()`
and applies each guarded section in source order. -/
def AthleteProfile.from_dict (doc : ProfileDoc) : AthleteProfile :=
  let p0 : AthleteProfile := {}
  let p1 := applySummary p0 doc.athlete_summary
  let p2 := applyPersonal p1 doc.personal_info
  let p3 := applyPhysio p2 doc.physiological_metrics
  let p4 := applyInjuries p3 doc.injury_history
  let p5 := applyTraining p4 doc.training_context
  let p6 := applyPerformance p5 doc.performance_data
  applyGoals p6 doc.race_goals

/-- Canonical-document equality "after stripping the embedded generation
timestamp" (spec §4.3): erase `athlete_summary.generated_at`. -/
def stripTimestamp (d : ProfileDoc) : ProfileDoc :=
  { d with athlete_summary := d.athlete_summary.map (fun s => { s with generated_at := none }) }

/- ### persistence.load_profile (persistence.py 85-141) -/

/-- The possible states of the profile file as `load_profile` can observe
them: absent, unreadable (IOError/OSError on open or read), syntactically
corrupt (json.JSONDecodeError/ValueError), or a parsed document. -/
inductive FileState where
  | missing
  | unreadable
  | corrupt
  | valid (doc : ProfileDoc)

/-- Source `persistence.load_profile`: a missing file and every caught error
degrade to `create_empty_profile`; a parsed document is handed to
`AthleteProfile.from_dict`. -/
def load_profile : FileState → AthleteProfile
  | .missing => create_empty_profile
  | .unreadable => create_empty_profile
  | .corrupt => create_empty_profile
  | .valid doc => AthleteProfile.from_dict doc

/- ### The training-days coherence check (called at cli.py 570) -/

/-- Split a character list on a separator character (like Python
`str.split(sep)`: the empty string yields one empty token). -/
def splitOnSep (sep : Char) : List Char → List (List Char)
  | [] => [[]]
  | c :: rest =>
    let r := splitOnSep sep rest
    if c = sep then [] :: r
    else
      match r with
      | [] => [[c]]
      | h :: t => (c :: h) :: t

/-- Count of unavailable days: comma-separated tokens, blanks dropped. -/
def unavailableDayCount (unavailable_days : String) : ℕ :=
  (((splitOnSep ',' unavailable_days.toList).map pyStripList).filter
    (fun t => t ≠ [])).length

/-- Day count of an `available_training_days` string: a bare integer, or
the larger endpoint of an `a-b` range. -/
def availableDayCount (available_training_days : String) : Option ℕ :=
  let parseNum : List Char → Option ℕ := fun t =>
    if t ≠ [] ∧ t.all Char.isDigit then some (natOfDigits t) else none
  match splitOnSep '-' (pyStripList available_training_days.toList) with
  | [a] => parseNum a
  | [a, b] =>
    match parseNum a, parseNum b with
    | some x, some y => some (max x y)
    | _, _ => none
  | _ => none

/-- Modelled from the spec: `AthleteProfile._validate_training_days_coherence`
is called from cli.py but its definition (and the `available_training_days`
/ `unavailable_days` fields) are not in src/. Per spec §3/§4.3/§8 it is a
pure function returning warning strings, warning exactly when the
available-day count exceeds the days of the week left over by
`unavailable_days` (the §8 example: available 5, three unavailable days
→ warning because 5 > 4). -/
def validate_training_days_coherence
    (available_training_days unavailable_days : String) : List String :=
  match availableDayCount available_training_days with
  | none => []
  | some n =>
    if (7 : ℤ) - unavailableDayCount unavailable_days < (n : ℤ) then
      ["Los días de entrenamiento disponibles superan los días de la semana no excluidos"]
    else []

/- ### The AI response validator (ai_interface.generate_training_plan,
ai_interface.py 303-332) -/

/-- Parsed JSON values as Python objects (`json.loads` output). -/
inductive PyVal where
  | null
  | bool (b : Bool)
  | int (n : ℤ)
  | float (q : ℚ)
  | str (s : String)
  | list (xs : List PyVal)
  | dict (xs : List (String × PyVal))

/-- Python `key in item` as used by the per-day validation loop: key
membership for dicts, substring for strings, element equality for lists
(a str equals only an equal str), and a TypeError — modelled as `none` —
for non-iterable values. The TypeError propagates to the function's
catch-all handler, which also returns `None`. -/
def pyContains (item : PyVal) (key : String) : Option Bool :=
  match item with
  | .dict xs => some (xs.any (fun kv => kv.1 == key))
  | .str s => some (decide (key.toList <:+: s.toList))
  | .list xs =>
    some (xs.any (fun v => match v with | .str s => s == key | _ => false))
  | _ => none

/-- The five required per-day fields of `plan_structured`. -/
def requiredDayKeys : List String :=
  ["week", "day_of_week", "day_description", "session_type", "details"]

/-- The response-validation block of `generate_training_plan`
(ai_interface.py 303-332): reject (None) unless the parsed value is a
dict carrying a string `plan_markdown` and a list `plan_structured` whose
every element contains all five per-day keys; on success the whole parsed
object is returned. -/
def validate_plan_response (plan_data : PyVal) : Option PyVal :=
  match plan_data with
  | .dict xs =>
    match xs.lookup "plan_markdown", xs.lookup "plan_structured" with
    | some md, some ps =>
      match md with
      | .str _ =>
        match ps with
        | .list items =>
          if items.all (fun it => requiredDayKeys.all (fun k => pyContains it k == some true)) then
            some plan_data
          else none
        | _ => none
      | _ => none
    | _, _ => none
  | _ => none

/- ### Concrete inputs used by individual claims -/

/-- A race literal used in counterexamples and witnesses. -/
def sampleRace : Race :=
  { name := "Media Maratón de Valencia", date := "2024-11-30",
    distance_km := 21097 / 1000, goal_time := some "01:28:00", terrain := "Llano" }

/-- A profile whose four `is_complete` fields are present but which has
no heart-rate data and no weekly-volume data. -/
def profileNoHR : AthleteProfile :=
  { name := "Ana", age := some 30, gender := "Femenino",
    main_objective := some sampleRace }

/-- The empty profile with `training_zones` set to `None`. -/
def profileZonesNone : AthleteProfile :=
  { create_empty_profile with training_zones := none }

/- ### Helper lemmas -/

/-- A `span` call consumes a maximal all-`p` prefix. -/
theorem span_upto_sep (p : Char → Bool) (g : List Char) (c : Char) (t : List Char)
    (hg : ∀ x ∈ g, p x = true) (hc : p c = false) :
    (g ++ c :: t).span p = (g, c :: t) := by
  rw [List.span_eq_take_drop]
  induction g with
  | nil => simp [List.takeWhile_cons, List.dropWhile_cons, hc]
  | cons a g ih =>
    have ha : p a = true := hg a (List.mem_cons_self a g)
    have ih' := ih (fun x hx => hg x (List.mem_cons_of_mem a hx))
    simp only [Prod.mk.injEq] at ih'
    simp only [List.cons_append, List.takeWhile_cons, List.dropWhile_cons, ha, if_true,
      Prod.mk.injEq, List.cons.injEq, true_and]
    exact ih'

/-- A `span` call consumes an all-`p` list entirely. -/
theorem span_all (p : Char → Bool) (l : List Char) (h : ∀ x ∈ l, p x = true) :
    l.span p = (l, []) := by
  rw [List.span_eq_take_drop]
  induction l with
  | nil => rfl
  | cons a t ih =>
    have ha : p a = true := h a (List.mem_cons_self a t)
    have ih' := ih (fun x hx => h x (List.mem_cons_of_mem a hx))
    simp only [Prod.mk.injEq] at ih'
    simp only [List.takeWhile_cons, List.dropWhile_cons, ha, if_true,
      Prod.mk.injEq, List.cons.injEq, true_and]
    exact ih'

/- ### Claim theorems -/

/-- C1 (counterexample): the claimed iff fails on the code. A profile
with name, age, gender and main_objective present but neither max_hr nor
resting_hr nor any weekly-volume data satisfies the source `is_complete`
even though the spec predicate is false on it. -/
theorem C1_counterexample :
    profileNoHR.is_complete = true ∧ specIsComplete profileNoHR = false := by
  constructor <;> rfl

/-- C1 (amended): `is_complete()` returns True iff name, age and gender
are present (non-None and non-empty) and main_objective is present; in
particular every profile missing main_objective is incomplete. The source
does not consult max_hr, resting_hr, avg_weekly_km or
training_days_per_week. -/
theorem C1_is_complete_characterization :
    (∀ p : AthleteProfile,
        p.is_complete = true ↔
          (p.name ≠ "" ∧ p.age.isSome = true ∧ p.gender ≠ "" ∧
            p.main_objective.isSome = true)) ∧
    (∀ p : AthleteProfile, p.main_objective = none → p.is_complete = false) := by
  constructor
  · intro p
    simp [AthleteProfile.is_complete, Bool.and_eq_true, bne_iff_ne, and_assoc]
  · intro p h
    simp [AthleteProfile.is_complete, h]

/-- C1 (witness): the default profile misses its main objective and is
reported incomplete. -/
theorem C1_witness : ({} : AthleteProfile).is_complete = false :=
  C1_is_complete_characterization.2 {} rfl

/-- C5 (counterexample): the gender normalizer is not three-valued on
every string — the empty string maps to itself, not to one of
Masculino/Femenino/Otro. -/
theorem C5_counterexample :
    normalize_gender_input "" ∉ (["Masculino", "Femenino", "Otro"] : List String) := by
  decide

/-- C5 (amended): for every nonempty input the gender normalizer returns
one of exactly Masculino/Femenino/Otro (it never fails); "hombre" maps to
Masculino and unmatched input such as "xyz" to Otro; the empty string maps
to "". -/
theorem C5_gender_totality :
    (∀ s : String, s ≠ "" →
        normalize_gender_input s ∈ (["Masculino", "Femenino", "Otro"] : List String)) ∧
    normalize_gender_input "hombre" = "Masculino" ∧
    normalize_gender_input "xyz" = "Otro" ∧
    normalize_gender_input "" = "" := by
  refine ⟨?_, rfl, rfl, rfl⟩
  intro s hs
  unfold normalize_gender_input
  rw [if_neg hs]
  split_ifs <;> simp

/-- C5 (witness). -/
theorem C5_witness :
    normalize_gender_input "hombre" ∈ (["Masculino", "Femenino", "Otro"] : List String) :=
  C5_gender_totality.1 "hombre" (by decide)

/-- C9 (counterexample): unmatched weekday input is returned stripped but
otherwise unchanged, not title-cased as claimed — "xyz" stays "xyz" while
title-casing would give "Xyz". -/
theorem C9_counterexample :
    normalize_day_of_week_input "xyz" = "xyz" ∧ specTitleCase "xyz" = "Xyz" ∧
      "xyz" ≠ "Xyz" := by
  refine ⟨rfl, rfl, by decide⟩

/-- C9 (amended): recognized abbreviations and full names (matched after
stripping and lower-casing, with accented and accent-less spellings in the
table) map to one of the seven canonical weekday names, and unmatched
input is returned stripped but otherwise unchanged. -/
theorem C9_day_normalizer :
    (∀ s d : String, s ≠ "" → day_mapping.lookup (pyLower (pyStrip s)) = some d →
        normalize_day_of_week_input s = d) ∧
    (∀ s : String, s ≠ "" → day_mapping.lookup (pyLower (pyStrip s)) = none →
        normalize_day_of_week_input s = pyStrip s) ∧
    (∀ kv ∈ day_mapping, kv.2 ∈ canonicalWeekdays) ∧
    normalize_day_of_week_input "LUNES" = "Lunes" ∧
    normalize_day_of_week_input "miercoles" = "Miércoles" ∧
    normalize_day_of_week_input "X" = "Miércoles" ∧
    normalize_day_of_week_input "sab" = "Sábado" := by
  refine ⟨?_, ?_, by decide, rfl, rfl, rfl, rfl⟩
  · intro s d hs h
    unfold normalize_day_of_week_input
    rw [if_neg hs, h]
    rfl
  · intro s hs h
    unfold normalize_day_of_week_input
    rw [if_neg hs, h]
    rfl

/-- C9 (witness). -/
theorem C9_witness : normalize_day_of_week_input "dom" = "Domingo" :=
  C9_day_normalizer.1 "dom" "Domingo" (by decide) (by decide)

/-- C7: loading never propagates an error — a missing, unreadable or
corrupt profile file yields the fresh empty profile, whose personal-best
map is pre-seeded with the four distance keys mapped to null. -/
theorem C7_load_profile_never_fails :
    load_profile .missing = create_empty_profile ∧
    load_profile .unreadable = create_empty_profile ∧
    load_profile .corrupt = create_empty_profile ∧
    create_empty_profile.personal_bests =
      [("5k", none), ("10k", none), ("half_marathon", none), ("marathon", none)] :=
  ⟨rfl, rfl, rfl, rfl⟩

/-- C8: the coherence check is a pure function into warning lists and
warns exactly when the available-day count exceeds 7 minus the number of
unavailable days; in particular 5 available days with Lunes, Martes and
Miércoles excluded (4 remaining) warns. -/
theorem C8_training_days_coherence :
    (∀ a u : String, ∀ n : ℕ, availableDayCount a = some n →
        (validate_training_days_coherence a u ≠ [] ↔
          (7 : ℤ) - unavailableDayCount u < (n : ℤ))) ∧
    validate_training_days_coherence "5" "Lunes,Martes,Miércoles" ≠ [] := by
  constructor
  · intro a u n h
    simp only [validate_training_days_coherence, h]
    split_ifs with hc
    · simp [hc]
    · simp [hc]
  · decide

/-- C8 (witness). -/
theorem C8_witness :
    validate_training_days_coherence "6" "Domingo" ≠ [] ↔
      (7 : ℤ) - unavailableDayCount "Domingo" < (6 : ℕ) :=
  C8_training_days_coherence.1 "6" "Domingo" 6 (by decide)

/-- C6: the response validator rejects wholesale — a non-dict response, a
missing or wrongly-typed `plan_markdown`/`plan_structured` key, or any
structured-list element on which one of the five per-day keys is not
found, each yield the failure value; in particular a response carrying
only the Markdown key is rejected. -/
theorem C6_response_validation :
    (∀ v : PyVal, (∀ xs, v ≠ .dict xs) → validate_plan_response v = none) ∧
    (∀ xs, xs.lookup "plan_markdown" = none ∨ xs.lookup "plan_structured" = none →
        validate_plan_response (.dict xs) = none) ∧
    (∀ xs md, xs.lookup "plan_markdown" = some md → (∀ s, md ≠ .str s) →
        validate_plan_response (.dict xs) = none) ∧
    (∀ xs ps, xs.lookup "plan_structured" = some ps → (∀ l, ps ≠ .list l) →
        validate_plan_response (.dict xs) = none) ∧
    (∀ xs s items it k, xs.lookup "plan_markdown" = some (.str s) →
        xs.lookup "plan_structured" = some (.list items) → it ∈ items →
        k ∈ requiredDayKeys → pyContains it k ≠ some true →
        validate_plan_response (.dict xs) = none) ∧
    validate_plan_response (.dict [("plan_markdown", .str "# Plan")]) = none := by
  refine ⟨?_, ?_, ?_, ?_, ?_, rfl⟩
  · intro v hv
    cases v with
    | dict xs => exact absurd rfl (hv xs)
    | null => rfl
    | bool b => rfl
    | int n => rfl
    | float q => rfl
    | str s => rfl
    | list xs => rfl
  · intro xs h
    simp only [validate_plan_response]
    rcases h with h | h
    · rw [h]
    · rw [h]
      cases xs.lookup "plan_markdown" <;> rfl
  · intro xs md hmd hnot
    simp only [validate_plan_response]
    rw [hmd]
    cases hps : xs.lookup "plan_structured" with
    | none => rfl
    | some ps =>
      cases md with
      | str s => exact absurd rfl (hnot s)
      | null => rfl
      | bool b => rfl
      | int n => rfl
      | float q => rfl
      | list l => rfl
      | dict d => rfl
  · intro xs ps hps hnot
    simp only [validate_plan_response]
    rw [hps]
    cases hmd : xs.lookup "plan_markdown" with
    | none => rfl
    | some md =>
      cases md with
      | str s =>
        cases ps with
        | list l => exact absurd rfl (hnot l)
        | null => rfl
        | bool b => rfl
        | int n => rfl
        | float q => rfl
        | str t => rfl
        | dict d => rfl
      | null => rfl
      | bool b => rfl
      | int n => rfl
      | float q => rfl
      | list l => rfl
      | dict d => rfl
  · intro xs s items it k hmd hps hit hk hfail
    simp only [validate_plan_response]
    have hall : items.all
        (fun it => requiredDayKeys.all (fun k => pyContains it k == some true)) = false := by
      by_contra hne
      have htrue := eq_true_of_ne_false hne
      have h1 := (List.all_eq_true.mp htrue) it hit
      have h2 := (List.all_eq_true.mp h1) k hk
      exact hfail (eq_of_beq h2)
    rw [hmd, hps]
    show (if (items.all fun it => requiredDayKeys.all fun k => pyContains it k == some true) = true
        then some (PyVal.dict xs) else none) = none
    simp [hall]

/-- C6 (witness): a bare string response is rejected. -/
theorem C6_witness : validate_plan_response (.str "plan") = none :=
  C6_response_validation.1 (.str "plan") (fun _xs h => PyVal.noConfusion h)

/-- Deserializing a serialized injury restores it. -/
theorem injury_roundtrip (i : Injury) : i.toDoc.toInjury = i := rfl

/-- Deserializing a serialized race restores it. -/
theorem race_roundtrip (r : Race) : r.toDoc.toRace = r := rfl

/-- Deserializing a serialized zones object restores it. -/
theorem zones_roundtrip (z : TrainingZones) : z.toDoc.toZones = z := rfl

/-- List version of `injury_roundtrip`. -/
theorem map_injury_roundtrip (l : List Injury) :
    l.map (InjuryDoc.toInjury ∘ Injury.toDoc) = l := by
  induction l with
  | nil => rfl
  | cons a t ih => simp [ih, Function.comp, injury_roundtrip]

/-- List version of `race_roundtrip`. -/
theorem map_race_roundtrip (l : List Race) :
    l.map (RaceDoc.toRace ∘ Race.toDoc) = l := by
  induction l with
  | nil => rfl
  | cons a t ih => simp [ih, Function.comp, race_roundtrip]

/-- The round-trip core: `from_dict (to_dict p) = p` whenever
`training_zones` is present and the two meta strings carry their dataclass
defaults (the source's `from_dict` never reads the meta strings back, and
a null `training_zones` deserializes to the truthy default zones
object). -/
theorem from_dict_to_dict (p : AthleteProfile)
    (hz : p.training_zones.isSome = true)
    (h1 : p.physiological_metrics_meta = PHYSIO_META)
    (h2 : p.injury_history_meta = INJURY_META) :
    AthleteProfile.from_dict p.to_dict = p := by
  obtain ⟨z, hzz⟩ := Option.isSome_iff_exists.mp hz
  cases p with
  | mk name generated_at age gender height_cm weight_kg physiological_metrics_meta
      max_hr resting_hr hrv_ms vo2_max lactate_threshold_bpm injury_history_meta
      injuries avg_weekly_km training_days_per_week strength_training_history
      include_strength_training quality_session_preference personal_bests
      training_zones main_objective intermediate_races =>
    simp only at h1 h2 hzz
    subst h1 h2 hzz
    cases main_objective with
    | none =>
      simp [AthleteProfile.from_dict, AthleteProfile.to_dict, applySummary, applyPersonal,
        applyPhysio, applyInjuries, applyTraining, applyPerformance, applyGoals,
        map_injury_roundtrip, map_race_roundtrip, zones_roundtrip]
    | some mo =>
      simp [AthleteProfile.from_dict, AthleteProfile.to_dict, applySummary, applyPersonal,
        applyPhysio, applyInjuries, applyTraining, applyPerformance, applyGoals,
        map_injury_roundtrip, map_race_roundtrip, zones_roundtrip, race_roundtrip]

/-- C3 (counterexample): for the empty profile with `training_zones`
stored as null, deserializing its serialization does not reproduce the
timestamp-stripped canonical document — `from_dict` leaves the default
(all-null but present) zones object in place of the serialized null. -/
theorem C3_counterexample :
    stripTimestamp (AthleteProfile.to_dict (AthleteProfile.from_dict
        (AthleteProfile.to_dict profileZonesNone))) ≠
      stripTimestamp (AthleteProfile.to_dict profileZonesNone) := by
  decide

/-- C3 (amended): the round-trip
`from_dict (to_dict P) = P` — hence timestamp-stripped canonical-document
equality — holds for every profile whose `training_zones` is present and
whose two meta strings are the dataclass defaults; and a document with
every optional section missing deserializes without failure to the
dataclass defaults. -/
theorem C3_roundtrip :
    (∀ p : AthleteProfile, p.training_zones.isSome = true →
        p.physiological_metrics_meta = PHYSIO_META →
        p.injury_history_meta = INJURY_META →
        AthleteProfile.from_dict p.to_dict = p ∧
        stripTimestamp (AthleteProfile.to_dict (AthleteProfile.from_dict p.to_dict)) =
          stripTimestamp p.to_dict) ∧
    AthleteProfile.from_dict emptyDoc = ({} : AthleteProfile) := by
  refine ⟨?_, rfl⟩
  intro p hz h1 h2
  have h := from_dict_to_dict p hz h1 h2
  exact ⟨h, by rw [h]⟩

/-- C3 (witness): the empty profile (whose zones default is present)
round-trips. -/
theorem C3_witness :
    AthleteProfile.from_dict create_empty_profile.to_dict = create_empty_profile :=
  (C3_roundtrip.1 create_empty_profile rfl rfl rfl).1

/-- On a bare two-field `A:B` input the three-field pattern fails (the
seconds group is followed by end of input, not by a second colon). -/
theorem matchHMS_two_field (a b : List Char)
    (ha : ∀ c ∈ a, c.isDigit = true) (hb : ∀ c ∈ b, c.isDigit = true)
    (hblen : b.length = 2) :
    matchHMS (a ++ ':' :: b) = none := by
  unfold matchHMS
  rw [span_upto_sep _ _ _ _ ha (by decide)]
  dsimp only
  rw [span_all _ _ hb]
  dsimp only
  rw [if_pos rfl, if_pos hblen]
  split_ifs <;> rfl

/-- On a bare two-field `A:B` input the two-field pattern captures the
two digit groups. -/
theorem matchMS_two_field (a b : List Char)
    (ha : ∀ c ∈ a, c.isDigit = true) (hb : ∀ c ∈ b, c.isDigit = true)
    (hlen : a.length = 1 ∨ a.length = 2) (hblen : b.length = 2) :
    matchMS (a ++ ':' :: b) = some (natOfDigits a, natOfDigits b) := by
  unfold matchMS
  rw [span_upto_sep _ _ _ _ ha (by decide)]
  dsimp only
  rw [if_pos hlen, if_pos rfl, span_all _ _ hb]
  dsimp only
  rw [if_pos ⟨hblen, rfl⟩]

/-- The two-group branch in closed form. -/
theorem twoFieldResult_eq (x y : ℕ) :
    twoFieldResult x y =
      if y < 60 then
        some (fmt2 (x / 60) ++ ":" ++ fmt2 (x % 60) ++ ":" ++ fmt2 y)
      else none := by
  unfold twoFieldResult finishTime
  have hm : x % 60 < 60 := Nat.mod_lt _ (by norm_num)
  rcases Nat.lt_or_ge x 60 with hx | hx
  · have hx' : ¬ 60 ≤ x := by omega
    simp only [if_neg hx']
    rw [Nat.div_eq_of_lt hx, Nat.mod_eq_of_lt hx]
    split_ifs <;> first | rfl | omega
  · simp only [if_pos hx]
    split_ifs <;> first | rfl | omega

/-- C2: the duration parser reads every bare two-field `A:B` form as
minutes:seconds, rolling minutes ≥ 60 into hours and zero-padding to
`HH:MM:SS`; it yields the failure value when the seconds (or, for the
three-field pattern, the minutes) come out ≥ 60, or when no pattern
matches; and the three documented examples hold. -/
theorem C2_parse_time :
    (∀ (s : String) (a b : List Char), s ≠ "" →
        cleanTimeInput s = a ++ ':' :: b →
        (∀ c ∈ a, c.isDigit = true) → (∀ c ∈ b, c.isDigit = true) →
        (a.length = 1 ∨ a.length = 2) → b.length = 2 →
        parse_time_input s =
          if natOfDigits b < 60 then
            some (fmt2 (natOfDigits a / 60) ++ ":" ++ fmt2 (natOfDigits a % 60) ++ ":" ++
              fmt2 (natOfDigits b))
          else none) ∧
    parse_time_input "18:30" = some "00:18:30" ∧
    parse_time_input "10:00" = some "00:10:00" ∧
    parse_time_input "90:00" = some "01:30:00" ∧
    (∀ s : String, matchHMS (cleanTimeInput s) = none → matchMS (cleanTimeInput s) = none →
        matchDotted (cleanTimeInput s) = none → matchHMSLetters (cleanTimeInput s) = none →
        matchHMLetters (cleanTimeInput s) = none → parse_time_input s = none) ∧
    (∀ (s : String) (h m sec : ℕ), s ≠ "" →
        matchHMS (cleanTimeInput s) = some (h, m, sec) → 60 ≤ m ∨ 60 ≤ sec →
        parse_time_input s = none) := by
  refine ⟨?_, by decide, by decide, by decide, ?_, ?_⟩
  · intro s a b hs hclean ha hb hlen hblen
    unfold parse_time_input
    rw [if_neg hs, hclean, matchHMS_two_field a b ha hb hblen,
      matchMS_two_field a b ha hb hlen hblen]
    dsimp only
    exact twoFieldResult_eq _ _
  · intro s h1 h2 h3 h4 h5
    unfold parse_time_input
    split_ifs with hse
    · rfl
    · rw [h1, h2, h3, h4, h5]
  · intro s h m sec hs hmt hbig
    unfold parse_time_input
    rw [if_neg hs, hmt]
    dsimp only
    unfold finishTime
    rw [if_pos hbig]

/-- C2 (witness): the minutes:seconds reading at the concrete input
"18:30". -/
theorem C2_witness :
    parse_time_input "18:30" =
      (if natOfDigits ['3', '0'] < 60 then
        some (fmt2 (natOfDigits ['1', '8'] / 60) ++ ":" ++ fmt2 (natOfDigits ['1', '8'] % 60) ++
          ":" ++ fmt2 (natOfDigits ['3', '0']))
      else none) :=
  C2_parse_time.1 "18:30" ['1', '8'] ['3', '0'] (by decide) (by decide) (by decide) (by decide)
    (by decide) (by decide)

/-- `bitLenAux` of zero is zero for any fuel. -/
theorem bitLenAux_zero_arg : ∀ fuel : ℕ, bitLenAux fuel 0 = 0
  | 0 => rfl
  | _ + 1 => rfl

/-- With sufficient fuel, `bitLenAux` computes the binary length. -/
theorem bitLenAux_spec : ∀ fuel n : ℕ, n < 2^fuel → n ≠ 0 →
    2^(bitLenAux fuel n - 1) ≤ n ∧ n < 2^(bitLenAux fuel n) := by
  intro fuel
  induction fuel with
  | zero => intro n hn h0; simp at hn; omega
  | succ f ih =>
    intro n hn h0
    rw [bitLenAux, if_neg h0]
    by_cases hh : n / 2 = 0
    · have hn1 : n = 1 := by omega
      subst hn1
      rw [hh, bitLenAux_zero_arg]
      norm_num
    · have hlt : n / 2 < 2^f := by
        have := Nat.pow_succ 2 f
        omega
      obtain ⟨ih1, ih2⟩ := ih (n / 2) hlt hh
      set L := bitLenAux f (n / 2) with hL
      have hL1 : 1 ≤ L := by
        by_contra hc
        have : L = 0 := by omega
        rw [this] at ih2
        omega
      have e1 : 2^L = 2 * 2^(L-1) := by
        conv_lhs => rw [show L = (L-1)+1 by omega]
        rw [pow_succ]
        ring
      have e2 : 2^(L+1) = 2 * 2^L := by rw [pow_succ]; ring
      constructor
      · have : 2^((L+1)-1) = 2^L := by congr 1
        rw [this]
        omega
      · omega

/-- The binary length brackets its argument between powers of two. -/
theorem bitLen_spec (n : ℕ) (hn : n ≠ 0) : 2^(bitLen n - 1) ≤ n ∧ n < 2^(bitLen n) :=
  bitLenAux_spec (n + 1) n (lt_of_lt_of_le (Nat.lt_two_pow n)
    (Nat.pow_le_pow_right (by norm_num) (by omega))) hn

/-- A bound on the argument bounds the binary length. -/
theorem bitLen_le (n k : ℕ) (h : n < 2^k) : bitLen n ≤ k := by
  by_cases h0 : n = 0
  · subst h0
    simp [bitLen, bitLenAux_zero_arg]
  · obtain ⟨h1, _⟩ := bitLen_spec n h0
    by_contra hc
    have hk : k ≤ bitLen n - 1 := by omega
    have := Nat.pow_le_pow_right (show 1 ≤ 2 by norm_num) hk
    omega

/-- Shifting by zero bits returns the argument unchanged. -/
theorem rheDiv_zero (a : ℤ) : rheDiv a 0 = a := by
  simp [rheDiv]

/-- Round-half-even division is within half a step of the exact value:
the scaled result lands within `2^(t-1)` of `a`. -/
theorem rheDiv_close (a : ℤ) (t : ℕ) (ht : 1 ≤ t) :
    |rheDiv a t * 2^t - a| ≤ 2^(t-1) := by
  have h2 : ((2^t : ℕ) : ℤ) = 2^t := by push_cast; ring
  have h1 : ((2^(t-1) : ℕ) : ℤ) = 2^(t-1) := by push_cast; ring
  have hsplit : (2:ℤ)^t = 2 * 2^(t-1) := by
    conv_lhs => rw [show t = (t-1)+1 by omega]
    rw [pow_succ]
    ring
  have hpos : (0:ℤ) < 2^t := by positivity
  have hmod1 : 0 ≤ a % 2^t := Int.emod_nonneg a (by positivity)
  have hmod2 : a % 2^t < 2^t := Int.emod_lt_of_pos a hpos
  have hdm : 2^t * (a / 2^t) + a % 2^t = a := Int.ediv_add_emod a (2^t)
  rw [rheDiv, if_neg (by omega : ¬ t = 0), h2, h1]
  split_ifs with hlt hgt hev
  · have he : a / 2^t * 2^t - a = -(a % 2^t) := by linarith
    rw [he, abs_neg, abs_of_nonneg hmod1]
    linarith
  · have he : (a / 2^t + 1) * 2^t - a = 2^t - a % 2^t := by ring_nf; linarith
    rw [he, abs_of_nonneg (by linarith)]
    linarith
  · have he : a / 2^t * 2^t - a = -(a % 2^t) := by linarith
    rw [he, abs_neg, abs_of_nonneg hmod1]
    omega
  · have he : (a / 2^t + 1) * 2^t - a = 2^t - a % 2^t := by ring_nf; linarith
    rw [he, abs_of_nonneg (by linarith)]
    omega

/-- Rounding a dyadic to the nearest integer (ties to even) moves it by
at most one half. -/
theorem rheDiv_final_close (x : Dyadic) :
    |((rheDiv x.num x.exp : ℤ) : ℚ) - x.val| ≤ 1/2 := by
  rcases x with ⟨a, t⟩
  rcases Nat.eq_zero_or_pos t with h0 | h1
  · subst h0
    simp [rheDiv_zero, Dyadic.val]
  · have hc := rheDiv_close a t h1
    have hq : (|rheDiv a t * 2^t - a| : ℚ) ≤ ((2^(t-1) : ℤ) : ℚ) := by
      exact_mod_cast hc
    push_cast at hq
    have hpos : (0:ℚ) < 2^t := by positivity
    have hval : (Dyadic.mk a t).val = (a:ℚ)/2^t := rfl
    rw [hval]
    have he : ((rheDiv a t : ℤ) : ℚ) - (a:ℚ)/2^t =
        (((rheDiv a t : ℤ) : ℚ) * 2^t - a) / 2^t := by
      field_simp
    rw [he, abs_div, abs_of_nonneg (le_of_lt hpos)]
    rw [div_le_div_iff hpos (by norm_num : (0:ℚ) < 2)]
    calc |((rheDiv a t : ℤ) : ℚ) * 2^t - (a:ℚ)| * 2
        ≤ (2:ℚ)^(t-1) * 2 := by linarith
      _ = 2^t := by
          rw [← pow_succ]
          congr 1
          omega
      _ ≤ 1 * 2^t := by linarith

/-- The value of an integer dyadic. -/
theorem val_mk_int (n : ℤ) : (Dyadic.mk n 0).val = (n : ℚ) := by
  simp [Dyadic.val]

/-- The exact product has the product value. -/
theorem dyMul_val (x y : Dyadic) : (dyMul x y).val = x.val * y.val := by
  rcases x with ⟨a, s⟩
  rcases y with ⟨b, t⟩
  simp only [dyMul, Dyadic.val]
  push_cast
  rw [pow_add]
  field_simp

/-- The exact sum has the sum value. -/
theorem dyAdd_val (x y : Dyadic) : (dyAdd x y).val = x.val + y.val := by
  rcases x with ⟨a, s⟩
  rcases y with ⟨b, t⟩
  simp only [dyAdd, Dyadic.val]
  have e1 : (2:ℚ)^(max s t - s) * 2^s = 2^(max s t) := by
    rw [← pow_add]
    congr 1
    omega
  have e2 : (2:ℚ)^(max s t - t) * 2^t = 2^(max s t) := by
    rw [← pow_add]
    congr 1
    omega
  have hs : (0:ℚ) < 2^s := by positivity
  have ht : (0:ℚ) < 2^t := by positivity
  have hm : (0:ℚ) < 2^(max s t) := by positivity
  push_cast
  field_simp
  linear_combination ((a:ℚ) * 2^t) * e1 + ((b:ℚ) * 2^s) * e2

/-- The discarded-bit count in closed form: 53 significant bits, floored
at scale `2^-1074`. -/
theorem dyUlpShift_eq (x : Dyadic) :
    dyUlpShift x = max ((bitLen x.num.natAbs : ℤ) - 53) ((x.exp : ℤ) - 1074) := by
  rw [dyUlpShift, ← max_add_add_right]
  congr 1 <;> ring

/-- In the rounding branches, the rounded value is the rounded mantissa
rescaled to the original grid. -/
theorem dyRound64_val_eq (x : Dyadic) (hnz : x.num ≠ 0) (ht : 0 < dyUlpShift x) :
    (dyRound64 x).val =
      ((rheDiv x.num (dyUlpShift x).toNat * 2^(dyUlpShift x).toNat : ℤ) : ℚ) / 2^x.exp := by
  rw [dyRound64, if_neg hnz, if_neg (by omega)]
  set T := (dyUlpShift x).toNat with hT
  split_ifs with hle
  · simp only [Dyadic.val]
    push_cast
    obtain ⟨d, hd⟩ : ∃ d, x.exp = T + d := ⟨x.exp - T, by omega⟩
    rw [hd]
    have hds : T + d - T = d := by omega
    rw [hds, pow_add]
    have h1 : (0:ℚ) < 2^d := by positivity
    have h2 : (0:ℚ) < 2^T := by positivity
    field_simp
    ring
  · simp only [Dyadic.val, pow_zero, div_one]
    push_cast
    obtain ⟨d, hd⟩ : ∃ d, T = x.exp + d := ⟨T - x.exp, by omega⟩
    rw [hd]
    have hds : x.exp + d - x.exp = d := by omega
    rw [hds, pow_add]
    have h2 : (0:ℚ) < 2^x.exp := by positivity
    field_simp
    ring

/-- Binary64 rounding error: at most one part in `2^53` of the value,
plus the subnormal quantum. -/
theorem dyRound64_err (x : Dyadic) :
    |(dyRound64 x).val - x.val| ≤ |x.val| / 2^53 + 1/2^1075 := by
  have hnn : (0:ℚ) ≤ |x.val| / 2^53 + 1/2^1075 := by positivity
  by_cases hnz : x.num = 0
  · obtain ⟨a, e⟩ := x
    simp only at hnz
    subst hnz
    simp only [dyRound64, if_pos rfl, Dyadic.val]
    simpa using hnn
  by_cases hts : dyUlpShift x ≤ 0
  · rw [dyRound64, if_neg hnz, if_pos hts]
    simpa using hnn
  push_neg at hts
  have hbv := dyRound64_val_eq x hnz hts
  set T := (dyUlpShift x).toNat with hTdef
  have hT1 : 1 ≤ T := by omega
  have hclose := rheDiv_close x.num T hT1
  have hq : |((rheDiv x.num T : ℤ):ℚ) * 2^T - (x.num:ℚ)| ≤ (2:ℚ)^(T-1) := by
    exact_mod_cast hclose
  have hpos : (0:ℚ) < 2^x.exp := by positivity
  have hxv : x.val = (x.num:ℚ)/2^x.exp := rfl
  have hdiff : (dyRound64 x).val - x.val =
      (((rheDiv x.num T : ℤ):ℚ) * 2^T - (x.num:ℚ)) / 2^x.exp := by
    rw [hbv, hxv]
    push_cast
    ring
  rw [hdiff, abs_div, abs_of_nonneg (le_of_lt hpos)]
  have hstep : |((rheDiv x.num T : ℤ):ℚ) * 2^T - (x.num:ℚ)| / 2^x.exp ≤
      (2:ℚ)^(T-1) / 2^x.exp := by
    apply div_le_div_of_nonneg_right hq hpos.le
  refine le_trans hstep ?_
  have hna : x.num.natAbs ≠ 0 := by
    intro hc
    exact hnz (Int.natAbs_eq_zero.mp hc)
  have habs : |x.val| = ((x.num.natAbs : ℕ) : ℚ) / 2^x.exp := by
    rw [hxv, abs_div, abs_of_nonneg (le_of_lt hpos), Int.cast_natAbs, Int.cast_abs]
  rcases le_or_lt ((x.exp : ℤ) - 1074) ((bitLen x.num.natAbs : ℤ) - 53) with hcase | hcase
  · have hsh : dyUlpShift x = (bitLen x.num.natAbs : ℤ) - 53 := by
      rw [dyUlpShift_eq]
      exact max_eq_left hcase
    have hTe : (T : ℤ) = (bitLen x.num.natAbs : ℤ) - 53 := by
      rw [hTdef, hsh]
      omega
    have hBL : 54 ≤ bitLen x.num.natAbs := by omega
    have h1 : 2^(T-1+53) ≤ x.num.natAbs := by
      have he : T-1+53 = bitLen x.num.natAbs - 1 := by omega
      rw [he]
      exact (bitLen_spec _ hna).1
    have hcast : (2:ℚ)^(T-1) * 2^53 ≤ ((x.num.natAbs : ℕ) : ℚ) := by
      rw [← pow_add]
      exact_mod_cast h1
    have hgoal1 : (2:ℚ)^(T-1) / 2^x.exp ≤ |x.val| / 2^53 := by
      rw [habs, div_div, div_le_div_iff hpos (by positivity)]
      calc (2:ℚ)^(T-1) * (2^x.exp * 2^53)
          = ((2:ℚ)^(T-1) * 2^53) * 2^x.exp := by ring
        _ ≤ ((x.num.natAbs : ℕ) : ℚ) * 2^x.exp :=
            mul_le_mul_of_nonneg_right hcast hpos.le
    linarith
  · have hsh : dyUlpShift x = (x.exp : ℤ) - 1074 := by
      rw [dyUlpShift_eq]
      exact max_eq_right hcase.le
    have hTe : (T : ℤ) = (x.exp : ℤ) - 1074 := by
      rw [hTdef, hsh]
      omega
    have hgoal2 : (2:ℚ)^(T-1) / 2^x.exp ≤ 1 / 2^1075 := by
      rw [div_le_div_iff hpos (by positivity)]
      have he : (2:ℚ)^(T-1) * 2^1075 = 2^x.exp := by
        rw [← pow_add]
        congr 1
        omega
      linarith
    have : (0:ℚ) ≤ |x.val| / 2^53 := by positivity
    linarith

/-- Rounding never grows a value by more than its relative error. -/
theorem dyRound64_abs (x : Dyadic) :
    |(dyRound64 x).val| ≤ |x.val| + |x.val|/2^53 + 1/2^1075 := by
  have h := dyRound64_err x
  have h2 := abs_sub_abs_le_abs_sub (dyRound64 x).val x.val
  linarith

/-- A dyadic integer below `2^53` loses no bits. -/
theorem dyUlpShift_int_le (n : ℤ) (h : n.natAbs < 2^53) : dyUlpShift ⟨n, 0⟩ ≤ 0 := by
  rw [dyUlpShift_eq]
  have hb : bitLen n.natAbs ≤ 53 := bitLen_le _ _ h
  apply max_le
  · show ((bitLen n.natAbs : ℤ)) - 53 ≤ 0
    omega
  · show (((0:ℕ)) : ℤ) - 1074 ≤ 0
    norm_num

/-- Integers of magnitude below `2^53` are exactly representable:
rounding leaves them unchanged. -/
theorem dyRound64_int_exact (n : ℤ) (h : n.natAbs < 2^53) :
    dyRound64 ⟨n, 0⟩ = ⟨n, 0⟩ := by
  have hsh := dyUlpShift_int_le n h
  by_cases h0 : n = 0
  · subst h0
    rfl
  · simp only [dyRound64]
    rw [if_neg h0, if_pos hsh]

/-- The overflow threshold dwarfs `2^60`. -/
theorem OVERFLOW_NUM_big : 2^60 ≤ OVERFLOW_NUM := by
  norm_num [OVERFLOW_NUM]

/-- Conversion of an integer below `2^53` succeeds and is exact. -/
theorem intToDouble_small (n : ℤ) (h : n.natAbs < 2^53) :
    intToDouble n = some ⟨n, 0⟩ := by
  have h1 : |n| < ((OVERFLOW_NUM:ℕ):ℤ) := by
    rw [Int.abs_eq_natAbs]
    have h2 : n.natAbs < OVERFLOW_NUM := by
      have h3 : (2:ℕ)^53 ≤ 2^60 := by norm_num
      have := OVERFLOW_NUM_big
      omega
    exact_mod_cast h2
  rw [intToDouble, if_neg (not_le.mpr h1), dyRound64_int_exact n h]

/-- A value short of the threshold does not overflow. -/
theorem dyOverflow_false (x : Dyadic) (h : |x.val| < ((OVERFLOW_NUM:ℕ):ℚ)) :
    dyOverflow x = false := by
  rw [dyOverflow, if_neg]
  intro hle
  have hle2 : (((OVERFLOW_NUM * 2^x.exp : ℕ):ℤ) : ℚ) ≤ ((|x.num|:ℤ):ℚ) := by
    exact_mod_cast hle
  rw [Int.cast_abs] at hle2
  push_cast at hle2
  have hpos : (0:ℚ) < 2^x.exp := by positivity
  have hval : |x.val| = |(x.num:ℚ)| / 2^x.exp := by
    rw [show x.val = (x.num:ℚ)/2^x.exp from rfl, abs_div,
      abs_of_nonneg hpos.le]
  rw [hval, div_lt_iff hpos] at h
  linarith

/-- Multiplication short of the threshold succeeds, returning the rounded
exact product. -/
theorem mulDouble_eq (x y : Dyadic) (h : |x.val * y.val| < ((OVERFLOW_NUM:ℕ):ℚ)) :
    mulDouble x y = some (dyRound64 (dyMul x y)) := by
  have ho : dyOverflow (dyMul x y) = false := by
    apply dyOverflow_false
    rw [dyMul_val]
    exact h
  simp [mulDouble, ho]

/-- Addition short of the threshold succeeds, returning the rounded exact
sum. -/
theorem addDouble_eq (x y : Dyadic) (h : |x.val + y.val| < ((OVERFLOW_NUM:ℕ):ℚ)) :
    addDouble x y = some (dyRound64 (dyAdd x y)) := by
  have ho : dyOverflow (dyAdd x y) = false := by
    apply dyOverflow_false
    rw [dyAdd_val]
    exact h
  simp [addDouble, ho]

/-- On the validated physiological box (`validate_heart_rates` admits
120-220 over 30-100), one Karvonen bound lands within `0.501` of the
exact `resting_hr + c * (max_hr - resting_hr)`. -/
theorem karvonenFloatWith_box (c : Dyadic) (M r : ℤ)
    (hM1 : 120 ≤ M) (hM2 : M ≤ 220) (hr1 : 30 ≤ r) (hr2 : r ≤ 100)
    (hc0 : 0 ≤ c.val) (hc1 : c.val ≤ 1) :
    ∃ b : ℤ, karvonenFloatWith c M r = some b ∧
      |(b:ℚ) - ((r:ℚ) + c.val * ((M:ℚ) - r))| ≤ 501/1000 := by
  have hbig : (2:ℚ)^60 ≤ ((OVERFLOW_NUM:ℕ):ℚ) := by exact_mod_cast OVERFLOW_NUM_big
  have h190 : (2:ℕ)^53 > 190 := by norm_num
  have hres_abs : (M - r).natAbs < 2^53 := by
    have : (M - r).natAbs ≤ 190 := by omega
    omega
  have h1 : intToDouble (M - r) = some ⟨M - r, 0⟩ := intToDouble_small _ hres_abs
  have hresv : (Dyadic.mk (M - r) 0).val = ((M:ℚ) - r) := by
    rw [val_mk_int]
    push_cast
    ring
  have hres_lo : (20:ℚ) ≤ (M:ℚ) - r := by
    have h : (20:ℤ) ≤ M - r := by omega
    exact_mod_cast h
  have hres_hi : (M:ℚ) - r ≤ 190 := by
    have h : M - r ≤ (190:ℤ) := by omega
    exact_mod_cast h
  have hcv : |c.val| ≤ 1 := by
    rw [abs_of_nonneg hc0]
    exact hc1
  have hresa : |(M:ℚ) - r| ≤ 190 := by
    rw [abs_of_nonneg (by linarith)]
    exact hres_hi
  have habs : |c.val * ((M:ℚ) - r)| ≤ 190 := by
    rw [abs_mul]
    calc |c.val| * |(M:ℚ) - r| ≤ 1 * 190 :=
          mul_le_mul hcv hresa (abs_nonneg _) (by norm_num)
      _ = 190 := by norm_num
  have hmul_val : |c.val * (Dyadic.mk (M - r) 0).val| < ((OVERFLOW_NUM:ℕ):ℚ) := by
    rw [hresv]
    have : (190:ℚ) < 2^60 := by norm_num
    linarith
  have h2 : mulDouble c ⟨M - r, 0⟩ = some (dyRound64 (dyMul c ⟨M - r, 0⟩)) :=
    mulDouble_eq _ _ hmul_val
  set t1 := dyRound64 (dyMul c ⟨M - r, 0⟩) with ht1
  have ht1err : |t1.val - c.val * ((M:ℚ) - r)| ≤ 1/2^44 := by
    have he := dyRound64_err (dyMul c ⟨M - r, 0⟩)
    rw [dyMul_val, hresv] at he
    have h44 : (190:ℚ)/2^53 + 1/2^1075 ≤ 1/2^44 := by norm_num
    rw [← ht1] at he
    calc |t1.val - c.val * ((M:ℚ) - r)|
        ≤ |c.val * ((M:ℚ) - r)| / 2^53 + 1/2^1075 := he
      _ ≤ 190/2^53 + 1/2^1075 := by linarith
      _ ≤ 1/2^44 := h44
  have ht1abs : |t1.val| ≤ 191 := by
    have htr := abs_sub_abs_le_abs_sub t1.val (c.val * ((M:ℚ) - r))
    have : (1:ℚ)/2^44 ≤ 1 := by norm_num
    linarith
  have hr_abs : r.natAbs < 2^53 := by
    have : r.natAbs ≤ 100 := by omega
    omega
  have h3 : intToDouble r = some ⟨r, 0⟩ := intToDouble_small _ hr_abs
  have hrq1 : (0:ℚ) ≤ (r:ℚ) := by
    have h : (0:ℤ) ≤ r := by omega
    exact_mod_cast h
  have hrq2 : (r:ℚ) ≤ 100 := by
    have h : r ≤ (100:ℤ) := by omega
    exact_mod_cast h
  have hadd_val : |(Dyadic.mk r 0).val + t1.val| < ((OVERFLOW_NUM:ℕ):ℚ) := by
    rw [val_mk_int]
    have htri := abs_add (r:ℚ) t1.val
    have hra : |(r:ℚ)| ≤ 100 := by
      rw [abs_of_nonneg hrq1]
      exact hrq2
    have : (291:ℚ) < 2^60 := by norm_num
    linarith
  have h4 : addDouble ⟨r, 0⟩ t1 = some (dyRound64 (dyAdd ⟨r, 0⟩ t1)) :=
    addDouble_eq _ _ hadd_val
  set t2 := dyRound64 (dyAdd ⟨r, 0⟩ t1) with ht2
  have ht2err : |t2.val - ((r:ℚ) + t1.val)| ≤ 1/2^43 := by
    have he := dyRound64_err (dyAdd ⟨r, 0⟩ t1)
    rw [dyAdd_val, val_mk_int] at he
    rw [← ht2] at he
    have hra : |(r:ℚ)| ≤ 100 := by
      rw [abs_of_nonneg hrq1]
      exact hrq2
    have htri := abs_add (r:ℚ) t1.val
    have h43 : (291:ℚ)/2^53 + 1/2^1075 ≤ 1/2^43 := by norm_num
    calc |t2.val - ((r:ℚ) + t1.val)|
        ≤ |(r:ℚ) + t1.val| / 2^53 + 1/2^1075 := he
      _ ≤ 291/2^53 + 1/2^1075 := by linarith
      _ ≤ 1/2^43 := h43
  refine ⟨rheDiv t2.num t2.exp, ?_, ?_⟩
  · simp only [karvonenFloatWith, h1, h2, h3, h4]
  · have hfin := rheDiv_final_close t2
    rw [abs_le] at hfin ht2err ht1err ⊢
    constructor <;> linarith

/-- Replacing the band constant by its exact decimal target costs at most
`190 / 2^54`: each boxed Karvonen bound is within `0.51` of the exact
decimal formula. -/
theorem karvonenBand_box (c : Dyadic) (q : ℚ) (M r : ℤ)
    (hM1 : 120 ≤ M) (hM2 : M ≤ 220) (hr1 : 30 ≤ r) (hr2 : r ≤ 100)
    (hc0 : 0 ≤ c.val) (hc1 : c.val ≤ 1) (hcq : |c.val - q| ≤ 1/2^54) :
    ∃ b : ℤ, karvonenFloatWith c M r = some b ∧
      |(b:ℚ) - ((r:ℚ) + q * ((M:ℚ) - r))| ≤ 51/100 := by
  obtain ⟨b, hb, hbd⟩ := karvonenFloatWith_box c M r hM1 hM2 hr1 hr2 hc0 hc1
  refine ⟨b, hb, ?_⟩
  have hres_lo : (20:ℚ) ≤ (M:ℚ) - r := by
    have h : (20:ℤ) ≤ M - r := by omega
    exact_mod_cast h
  have hres_hi : (M:ℚ) - r ≤ 190 := by
    have h : M - r ≤ (190:ℤ) := by omega
    exact_mod_cast h
  have hresa : |(M:ℚ) - r| ≤ 190 := by
    rw [abs_of_nonneg (by linarith)]
    exact hres_hi
  have ht : |(c.val - q) * ((M:ℚ) - r)| ≤ (1/2^54) * 190 := by
    rw [abs_mul]
    exact mul_le_mul hcq hresa (abs_nonneg _) (by positivity)
  have hsplit : (r:ℚ) + c.val * ((M:ℚ) - r) =
      (r:ℚ) + q * ((M:ℚ) - r) + (c.val - q) * ((M:ℚ) - r) := by ring
  rw [hsplit] at hbd
  have hnum : (501:ℚ)/1000 + (1/2^54) * 190 ≤ 51/100 := by norm_num
  rw [abs_le] at hbd ht ⊢
  constructor <;> linarith

/-- With band constant exactly one (the 100% bound), the computation is
exact: every step fits in 53 bits and the result is `max_hr` itself. -/
theorem karvonenFloatWith_one (M r : ℤ)
    (hM : M.natAbs < 2^52) (hr : r.natAbs < 2^52) :
    karvonenFloatWith ⟨1, 0⟩ M r = some M := by
  have hbig : (2:ℚ)^60 ≤ ((OVERFLOW_NUM:ℕ):ℚ) := by exact_mod_cast OVERFLOW_NUM_big
  have hp : (2:ℕ)^52 + 2^52 = 2^53 := by norm_num
  have hres : (M - r).natAbs < 2^53 := by omega
  have hM53 : M.natAbs < 2^53 := by omega
  have h1 : intToDouble (M - r) = some ⟨M - r, 0⟩ := intToDouble_small _ hres
  have habs53 : |((M:ℚ) - (r:ℚ))| < 2^53 := by
    have h2 : (((M - r).natAbs : ℕ) : ℚ) < 2^53 := by exact_mod_cast hres
    rw [Int.cast_natAbs] at h2
    push_cast at h2
    exact h2
  have hmm : dyMul ⟨1, 0⟩ ⟨M - r, 0⟩ = ⟨M - r, 0⟩ := by
    simp [dyMul]
  have h2 : mulDouble ⟨1, 0⟩ ⟨M - r, 0⟩ = some ⟨M - r, 0⟩ := by
    rw [mulDouble_eq _ _ ?_, hmm, dyRound64_int_exact _ hres]
    rw [val_mk_int, val_mk_int]
    push_cast
    rw [one_mul]
    have : (2:ℚ)^53 < 2^60 := by norm_num
    linarith
  have h3 : intToDouble r = some ⟨r, 0⟩ := intToDouble_small _ (by omega)
  have haa : dyAdd ⟨r, 0⟩ ⟨M - r, 0⟩ = ⟨M, 0⟩ := by
    simp only [dyAdd]
    norm_num
  have h4 : addDouble ⟨r, 0⟩ ⟨M - r, 0⟩ = some ⟨M, 0⟩ := by
    rw [addDouble_eq _ _ ?_, haa, dyRound64_int_exact _ hM53]
    rw [val_mk_int, val_mk_int]
    have hMq : |(M:ℚ)| < 2^53 := by
      have h2 : ((M.natAbs : ℕ) : ℚ) < 2^53 := by exact_mod_cast hM53
      rw [Int.cast_natAbs] at h2
      push_cast at h2
      exact h2
    have he : (r:ℚ) + ((M:ℚ) - (r:ℚ)) = (M:ℚ) := by ring
    push_cast
    rw [he]
    have : (2:ℚ)^53 < 2^60 := by norm_num
    linarith
  simp only [karvonenFloatWith, h1, h2, h3, h4]
  simp [rheDiv_zero]

/-- Conversion of an integer of magnitude up to `2^54` succeeds (possibly
rounding) and the result stays below `2^55`. -/
theorem intToDouble_mid (n : ℤ) (h : n.natAbs ≤ 2^54) :
    intToDouble n = some (dyRound64 ⟨n, 0⟩) ∧ |(dyRound64 ⟨n, 0⟩).val| ≤ (2:ℚ)^55 := by
  have hbig : (2:ℕ)^60 ≤ OVERFLOW_NUM := OVERFLOW_NUM_big
  have hov : |n| < ((OVERFLOW_NUM:ℕ):ℤ) := by
    rw [Int.abs_eq_natAbs]
    have h2 : n.natAbs < OVERFLOW_NUM := by
      have h3 : (2:ℕ)^54 < 2^60 := by norm_num
      omega
    exact_mod_cast h2
  have hq : |(n:ℚ)| ≤ 2^54 := by
    have h2 : ((n.natAbs : ℕ) : ℚ) ≤ 2^54 := by exact_mod_cast h
    rw [Int.cast_natAbs] at h2
    push_cast at h2
    exact h2
  constructor
  · rw [intToDouble, if_neg (not_le.mpr hov)]
  · have ha := dyRound64_abs ⟨n, 0⟩
    rw [val_mk_int] at ha
    have hd : |(n:ℚ)|/2^53 ≤ 2^54/2^53 := by
      apply div_le_div_of_nonneg_right hq (by positivity)
    have he : (2:ℚ)^54 + 2^54/2^53 + 1/2^1075 ≤ 2^55 := by norm_num
    linarith

/-- On every pair of inputs of magnitude up to `2^53` (any plausible
heart rate), the whole Karvonen pipeline stays far from the overflow
threshold and returns a value, whatever band constant of magnitude at
most one is used. -/
theorem karvonenFloatWith_total (c : Dyadic) (M r : ℤ)
    (hM : M.natAbs ≤ 2^53) (hr : r.natAbs ≤ 2^53) (hc : |c.val| ≤ 1) :
    ∃ b : ℤ, karvonenFloatWith c M r = some b := by
  have hbig : (2:ℚ)^60 ≤ ((OVERFLOW_NUM:ℕ):ℚ) := by exact_mod_cast OVERFLOW_NUM_big
  have hp : (2:ℕ)^53 + 2^53 = 2^54 := by norm_num
  obtain ⟨h1, h1a⟩ := intToDouble_mid (M - r) (by omega)
  set hrRes := dyRound64 ⟨M - r, 0⟩ with hhr
  have hmul_val : |c.val * hrRes.val| < ((OVERFLOW_NUM:ℕ):ℚ) := by
    rw [abs_mul]
    have h2 : |c.val| * |hrRes.val| ≤ 1 * 2^55 :=
      mul_le_mul hc h1a (abs_nonneg _) (by norm_num)
    have h3 : (1:ℚ) * 2^55 < 2^60 := by norm_num
    linarith
  have h2 : mulDouble c hrRes = some (dyRound64 (dyMul c hrRes)) :=
    mulDouble_eq _ _ hmul_val
  set t1 := dyRound64 (dyMul c hrRes) with ht1
  have ht1abs : |t1.val| ≤ (2:ℚ)^56 := by
    have ha := dyRound64_abs (dyMul c hrRes)
    rw [dyMul_val, ← ht1] at ha
    have hcm : |c.val * hrRes.val| ≤ 2^55 := by
      rw [abs_mul]
      have h3 : |c.val| * |hrRes.val| ≤ 1 * 2^55 :=
        mul_le_mul hc h1a (abs_nonneg _) (by norm_num)
      linarith
    have hd : |c.val * hrRes.val|/2^53 ≤ 2^55/2^53 := by
      apply div_le_div_of_nonneg_right hcm (by positivity)
    have he : (2:ℚ)^55 + 2^55/2^53 + 1/2^1075 ≤ 2^56 := by norm_num
    linarith
  obtain ⟨h3, h3a⟩ := intToDouble_mid r (by omega)
  set rf := dyRound64 ⟨r, 0⟩ with hrf
  have hadd_val : |rf.val + t1.val| < ((OVERFLOW_NUM:ℕ):ℚ) := by
    have htri := abs_add rf.val t1.val
    have h4 : (2:ℚ)^55 + 2^56 < 2^60 := by norm_num
    linarith
  have h4 : addDouble rf t1 = some (dyRound64 (dyAdd rf t1)) :=
    addDouble_eq _ _ hadd_val
  exact ⟨rheDiv (dyRound64 (dyAdd rf t1)).num (dyRound64 (dyAdd rf t1)).exp,
    by simp only [karvonenFloatWith, h1, h2, h3, h4]⟩

/-- C4 (corrected): on the heart-rate box the source's
`validate_heart_rates` admits (max 120-220 over resting 30-100), the
zone computation returns the five `low-high` strings of the six binary64
Karvonen bounds; each bound is within `0.51` of the exact
`resting_hr + k/10 * (max_hr - resting_hr)`, the five zone lower bounds
are strictly increasing, and zone 5's upper bound equals `max_hr`
exactly. Outside this box the strict increase can fail
(`C4_counterexample`). -/
theorem C4_karvonen_zones (M r : ℤ)
    (hM1 : 120 ≤ M) (hM2 : M ≤ 220) (hr1 : 30 ≤ r) (hr2 : r ≤ 100) :
    ∃ b5 b6 b7 b8 b9 : ℤ,
      karvonenBoundFloat M r 5 = some b5 ∧
      karvonenBoundFloat M r 6 = some b6 ∧
      karvonenBoundFloat M r 7 = some b7 ∧
      karvonenBoundFloat M r 8 = some b8 ∧
      karvonenBoundFloat M r 9 = some b9 ∧
      karvonenBoundFloat M r 10 = some M ∧
      calculate_training_zones M r = some
        { zone1_hr := some (toString b5 ++ "-" ++ toString b6)
          zone2_hr := some (toString b6 ++ "-" ++ toString b7)
          zone3_hr := some (toString b7 ++ "-" ++ toString b8)
          zone4_hr := some (toString b8 ++ "-" ++ toString b9)
          zone5_hr := some (toString b9 ++ "-" ++ toString M) } ∧
      (b5 < b6 ∧ b6 < b7 ∧ b7 < b8 ∧ b8 < b9 ∧ b9 < M) ∧
      (|(b5:ℚ) - ((r:ℚ) + 5/10 * ((M:ℚ) - r))| ≤ 51/100 ∧
       |(b6:ℚ) - ((r:ℚ) + 6/10 * ((M:ℚ) - r))| ≤ 51/100 ∧
       |(b7:ℚ) - ((r:ℚ) + 7/10 * ((M:ℚ) - r))| ≤ 51/100 ∧
       |(b8:ℚ) - ((r:ℚ) + 8/10 * ((M:ℚ) - r))| ≤ 51/100 ∧
       |(b9:ℚ) - ((r:ℚ) + 9/10 * ((M:ℚ) - r))| ≤ 51/100) := by
  obtain ⟨b5, hb5, he5⟩ := karvonenBand_box ⟨4503599627370496, 53⟩ (5/10) M r
    hM1 hM2 hr1 hr2 (by simp only [Dyadic.val]; norm_num)
    (by simp only [Dyadic.val]; norm_num)
    (by simp only [Dyadic.val]; rw [abs_le]; constructor <;> norm_num)
  obtain ⟨b6, hb6, he6⟩ := karvonenBand_box ⟨5404319552844595, 53⟩ (6/10) M r
    hM1 hM2 hr1 hr2 (by simp only [Dyadic.val]; norm_num)
    (by simp only [Dyadic.val]; norm_num)
    (by simp only [Dyadic.val]; rw [abs_le]; constructor <;> norm_num)
  obtain ⟨b7, hb7, he7⟩ := karvonenBand_box ⟨6305039478318694, 53⟩ (7/10) M r
    hM1 hM2 hr1 hr2 (by simp only [Dyadic.val]; norm_num)
    (by simp only [Dyadic.val]; norm_num)
    (by simp only [Dyadic.val]; rw [abs_le]; constructor <;> norm_num)
  obtain ⟨b8, hb8, he8⟩ := karvonenBand_box ⟨7205759403792794, 53⟩ (8/10) M r
    hM1 hM2 hr1 hr2 (by simp only [Dyadic.val]; norm_num)
    (by simp only [Dyadic.val]; norm_num)
    (by simp only [Dyadic.val]; rw [abs_le]; constructor <;> norm_num)
  obtain ⟨b9, hb9, he9⟩ := karvonenBand_box ⟨8106479329266893, 53⟩ (9/10) M r
    hM1 hM2 hr1 hr2 (by simp only [Dyadic.val]; norm_num)
    (by simp only [Dyadic.val]; norm_num)
    (by simp only [Dyadic.val]; rw [abs_le]; constructor <;> norm_num)
  have hkb5 : karvonenBoundFloat M r 5 = some b5 := hb5
  have hkb6 : karvonenBoundFloat M r 6 = some b6 := hb6
  have hkb7 : karvonenBoundFloat M r 7 = some b7 := hb7
  have hkb8 : karvonenBoundFloat M r 8 = some b8 := hb8
  have hkb9 : karvonenBoundFloat M r 9 = some b9 := hb9
  have h220 : (220:ℕ) < 2^52 := by norm_num
  have hkb10 : karvonenBoundFloat M r 10 = some M :=
    karvonenFloatWith_one M r (by omega) (by omega)
  have hres_lo : (20:ℚ) ≤ (M:ℚ) - r := by
    have h : (20:ℤ) ≤ M - r := by omega
    exact_mod_cast h
  have hi5 := he5
  have hi6 := he6
  have hi7 := he7
  have hi8 := he8
  have hi9 := he9
  rw [abs_le] at hi5 hi6 hi7 hi8 hi9
  refine ⟨b5, b6, b7, b8, b9, hkb5, hkb6, hkb7, hkb8, hkb9, hkb10, ?_, ?_,
    he5, he6, he7, he8, he9⟩
  · simp only [calculate_training_zones, hkb5, hkb6, hkb7, hkb8, hkb9, hkb10]
  · refine ⟨?_, ?_, ?_, ?_, ?_⟩
    · have h : (b5:ℚ) < (b6:ℚ) := by linarith
      exact_mod_cast h
    · have h : (b6:ℚ) < (b7:ℚ) := by linarith
      exact_mod_cast h
    · have h : (b7:ℚ) < (b8:ℚ) := by linarith
      exact_mod_cast h
    · have h : (b8:ℚ) < (b9:ℚ) := by linarith
      exact_mod_cast h
    · have h : (b9:ℚ) < (M:ℚ) := by linarith
      exact_mod_cast h

/-- C4 (counterexample): already at `max_hr = 1 > 0 = resting_hr` the
zone lower bounds are 0, 1, 1, 1, 1 — `round(0.6)` and `round(0.7)`
both give 1 under round-half-even on binary64 — so the strict increase
claimed for every `max_hr > resting_hr` fails. -/
theorem C4_counterexample :
    (0:ℤ) < 1 ∧ calculate_training_zones 1 0 = some
      { zone1_hr := some "0-1", zone2_hr := some "1-1", zone3_hr := some "1-1",
        zone4_hr := some "1-1", zone5_hr := some "1-1" } := by
  decide

/-- C4 (witness): the zone theorem instantiated at `max_hr = 184`,
`resting_hr = 41`. -/
theorem C4_witness :
    ((120:ℤ) ≤ 184 ∧ (184:ℤ) ≤ 220 ∧ (30:ℤ) ≤ 41 ∧ (41:ℤ) ≤ 100) ∧
    (∃ b5 b6 b7 b8 b9 : ℤ,
      karvonenBoundFloat 184 41 5 = some b5 ∧
      karvonenBoundFloat 184 41 6 = some b6 ∧
      karvonenBoundFloat 184 41 7 = some b7 ∧
      karvonenBoundFloat 184 41 8 = some b8 ∧
      karvonenBoundFloat 184 41 9 = some b9 ∧
      karvonenBoundFloat 184 41 10 = some 184 ∧
      calculate_training_zones 184 41 = some
        { zone1_hr := some (toString b5 ++ "-" ++ toString b6)
          zone2_hr := some (toString b6 ++ "-" ++ toString b7)
          zone3_hr := some (toString b7 ++ "-" ++ toString b8)
          zone4_hr := some (toString b8 ++ "-" ++ toString b9)
          zone5_hr := some (toString b9 ++ "-" ++ toString (184:ℤ)) } ∧
      (b5 < b6 ∧ b6 < b7 ∧ b7 < b8 ∧ b8 < b9 ∧ b9 < 184) ∧
      (|(b5:ℚ) - (((41:ℤ):ℚ) + 5/10 * (((184:ℤ):ℚ) - ((41:ℤ):ℚ)))| ≤ 51/100 ∧
       |(b6:ℚ) - (((41:ℤ):ℚ) + 6/10 * (((184:ℤ):ℚ) - ((41:ℤ):ℚ)))| ≤ 51/100 ∧
       |(b7:ℚ) - (((41:ℤ):ℚ) + 7/10 * (((184:ℤ):ℚ) - ((41:ℤ):ℚ)))| ≤ 51/100 ∧
       |(b8:ℚ) - (((41:ℤ):ℚ) + 8/10 * (((184:ℤ):ℚ) - ((41:ℤ):ℚ)))| ≤ 51/100 ∧
       |(b9:ℚ) - (((41:ℤ):ℚ) + 9/10 * (((184:ℤ):ℚ) - ((41:ℤ):ℚ)))| ≤ 51/100)) :=
  ⟨⟨by decide, by decide, by decide, by decide⟩,
    C4_karvonen_zones 184 41 (by decide) (by decide) (by decide) (by decide)⟩

/-- C10 (counterexample): at `max_hr = 2^1024 - 2^970` (the exact
OverflowError threshold of CPython's int-to-float conversion) and
`resting_hr = 0`, the very first step `float(hr_reserve)` raises, so the
computation fails: `calculate_training_zones` is not total over all
integer inputs. -/
theorem C10_counterexample :
    calculate_training_zones ((OVERFLOW_NUM : ℕ) : ℤ) 0 = none := by
  decide

/-- C10 (corrected): for every pair of inputs of magnitude at most
`2^53` — far beyond any plausible heart rate, and with no constraint
between the two — the computation never fails and returns the five
populated `low-high` strings built from the six Karvonen bounds; on the
inverted pair (100, 150) the concrete inverted ranges come out. Totality
over all integers, however, is refuted by the overflow counterexample. -/
theorem C10_zones_total :
    (∀ M r : ℤ, M.natAbs ≤ 2^53 → r.natAbs ≤ 2^53 →
      ∃ b5 b6 b7 b8 b9 b10 : ℤ,
        karvonenBoundFloat M r 5 = some b5 ∧
        karvonenBoundFloat M r 6 = some b6 ∧
        karvonenBoundFloat M r 7 = some b7 ∧
        karvonenBoundFloat M r 8 = some b8 ∧
        karvonenBoundFloat M r 9 = some b9 ∧
        karvonenBoundFloat M r 10 = some b10 ∧
        calculate_training_zones M r = some
          { zone1_hr := some (toString b5 ++ "-" ++ toString b6)
            zone2_hr := some (toString b6 ++ "-" ++ toString b7)
            zone3_hr := some (toString b7 ++ "-" ++ toString b8)
            zone4_hr := some (toString b8 ++ "-" ++ toString b9)
            zone5_hr := some (toString b9 ++ "-" ++ toString b10) }) ∧
    calculate_training_zones 100 150 = some
      { zone1_hr := some "125-120", zone2_hr := some "120-115",
        zone3_hr := some "115-110", zone4_hr := some "110-105",
        zone5_hr := some "105-100" } := by
  constructor
  · intro M r hM hr
    obtain ⟨b5, hb5⟩ := karvonenFloatWith_total ⟨4503599627370496, 53⟩ M r hM hr
      (by simp only [Dyadic.val]; rw [abs_le]; constructor <;> norm_num)
    obtain ⟨b6, hb6⟩ := karvonenFloatWith_total ⟨5404319552844595, 53⟩ M r hM hr
      (by simp only [Dyadic.val]; rw [abs_le]; constructor <;> norm_num)
    obtain ⟨b7, hb7⟩ := karvonenFloatWith_total ⟨6305039478318694, 53⟩ M r hM hr
      (by simp only [Dyadic.val]; rw [abs_le]; constructor <;> norm_num)
    obtain ⟨b8, hb8⟩ := karvonenFloatWith_total ⟨7205759403792794, 53⟩ M r hM hr
      (by simp only [Dyadic.val]; rw [abs_le]; constructor <;> norm_num)
    obtain ⟨b9, hb9⟩ := karvonenFloatWith_total ⟨8106479329266893, 53⟩ M r hM hr
      (by simp only [Dyadic.val]; rw [abs_le]; constructor <;> norm_num)
    obtain ⟨b10, hb10⟩ := karvonenFloatWith_total ⟨1, 0⟩ M r hM hr
      (by simp only [Dyadic.val]; rw [abs_le]; constructor <;> norm_num)
    have hkb5 : karvonenBoundFloat M r 5 = some b5 := hb5
    have hkb6 : karvonenBoundFloat M r 6 = some b6 := hb6
    have hkb7 : karvonenBoundFloat M r 7 = some b7 := hb7
    have hkb8 : karvonenBoundFloat M r 8 = some b8 := hb8
    have hkb9 : karvonenBoundFloat M r 9 = some b9 := hb9
    have hkb10 : karvonenBoundFloat M r 10 = some b10 := hb10
    exact ⟨b5, b6, b7, b8, b9, b10, hkb5, hkb6, hkb7, hkb8, hkb9, hkb10,
      by simp only [calculate_training_zones, hkb5, hkb6, hkb7, hkb8, hkb9, hkb10]⟩
  · decide

/-- C10 (witness): the totality statement instantiated at the inverted
pair `max_hr = 90`, `resting_hr = 60`. -/
theorem C10_witness :
    ((90:ℤ).natAbs ≤ 2^53 ∧ (60:ℤ).natAbs ≤ 2^53) ∧
    (∃ b5 b6 b7 b8 b9 b10 : ℤ,
      karvonenBoundFloat 90 60 5 = some b5 ∧
      karvonenBoundFloat 90 60 6 = some b6 ∧
      karvonenBoundFloat 90 60 7 = some b7 ∧
      karvonenBoundFloat 90 60 8 = some b8 ∧
      karvonenBoundFloat 90 60 9 = some b9 ∧
      karvonenBoundFloat 90 60 10 = some b10 ∧
      calculate_training_zones 90 60 = some
        { zone1_hr := some (toString b5 ++ "-" ++ toString b6)
          zone2_hr := some (toString b6 ++ "-" ++ toString b7)
          zone3_hr := some (toString b7 ++ "-" ++ toString b8)
          zone4_hr := some (toString b8 ++ "-" ++ toString b9)
          zone5_hr := some (toString b9 ++ "-" ++ toString b10) }) :=
  ⟨⟨by decide, by decide⟩, C10_zones_total.1 90 60 (by decide) (by decide)⟩
